import Mathlib

/-!
FastFPC: a shallow embedding of `FPC.go`.

`FPC.go` is a full-page caching proxy: a request is classified (`isCacheable`),
a cache key is derived (`getCacheKeyWithConfig`), and `handleRequest` resolves
the request against the local tier (go-cache), the remote tier (Redis) and the
origin (`proxyRequest`), answering through `serveContent`.

Go strings are byte sequences; they are embedded as lists of byte values.
-/

namespace FastFPC

/-! ## Byte strings -/

/-- A Go `string` (and `[]byte`): a sequence of bytes, each a number below 256. -/
abbrev GoString := List Nat

/-- The bytes of an ASCII literal of the source text. -/
def ascii (s : String) : GoString := s.data.map Char.toNat

/-- Go `strings.TrimRight(s, cutset)` for an ASCII `cutset`: the trailing bytes
of `s` that occur in `cutset` are removed. -/
def TrimRight (s cutset : GoString) : GoString :=
  (s.reverse.dropWhile (fun b => cutset.contains b)).reverse

/-- Go `strings.HasPrefix(s, p)`: `len(s) >= len(p) && s[:len(p)] == p`. -/
def HasPrefix (s p : GoString) : Bool :=
  decide (p.length ≤ s.length) && (s.take p.length == p)

/-- The loop of `filepath.Ext`, run over the reversed path: `acc` holds the
bytes already passed, so `c :: acc` is `path[i:]`. -/
def extLoop : GoString → GoString → GoString
  | [], _ => []
  | c :: rest, acc =>
    if c = 47 then []
    else if c = 46 then c :: acc
    else extLoop rest (c :: acc)

/-- Go `filepath.Ext(path)` with separator `/`: the suffix beginning at the
final dot of the final path element, empty when that element has no dot. -/
def Ext (path : GoString) : GoString := extLoop path.reverse []

/-! ## Requests and configuration -/

/-- Go `validCookieValueByte` of `net/http`: the bytes a cookie value may hold. -/
def validCookieValueByte (b : Nat) : Bool :=
  decide (0x20 ≤ b ∧ b < 0x7f ∧ b ≠ 0x22 ∧ b ≠ 0x3B ∧ b ≠ 0x5C)

/-- The value of a cookie as `r.Cookie` returns it: `net/http` parses the
`Cookie` header with `parseCookieValue`, which drops every cookie whose value
holds a byte that fails `validCookieValueByte`. -/
abbrev CookieValue := { v : GoString // v.all validCookieValueByte = true }

/-- The parts of `*http.Request` the program reads.  `XForwardedProto` is
`r.Header.Get("X-Forwarded-Proto")` (empty when the header is absent) and
`VaryCookie` is the outcome of `r.Cookie("X-Magento-Vary")` (`none` when it
returns an error); every other header and cookie is in `OtherHeaders` and
`OtherCookies`. -/
structure Request where
  Method : GoString
  Host : GoString
  Path : GoString
  RawQuery : GoString
  XForwardedProto : GoString
  VaryCookie : Option CookieValue
  OtherHeaders : List (GoString × GoString)
  OtherCookies : List (GoString × GoString)
deriving DecidableEq

/-- The fields of `CacheConfig` read by request handling.  Durations are in
nanoseconds, as `time.Duration` is. -/
structure CacheConfig where
  UseHTTPS : Bool
  Host : GoString
  Prefix : GoString
  Debug : Bool
  CacheTTL : Int
  UseCache : Bool
  UseStale : Bool
  StaleExpiry : Int
deriving DecidableEq, Repr

/-! ## Classifier -/

/-- The package variable `ignoredURLs`. -/
def ignoredURLs : List GoString :=
  [ascii "/customer", ascii "/media", ascii "/admin", ascii "/checkout", ascii "/cf/"]

/-- The map literal `staticExts` of `isCacheable`, as the list of its keys
(every value is `true`). -/
def staticExts : List GoString :=
  [ascii ".css", ascii ".js", ascii ".png", ascii ".jpg", ascii ".jpeg", ascii ".gif",
   ascii ".svg"]

/-- The `for _, pattern := range ignoredURLs` loop of `isCacheable`: `true`
when some pattern, its trailing `/` removed, is a prefix of `path`. -/
def matchesIgnored (path : GoString) : List GoString → Bool
  | [] => false
  | pattern :: rest =>
    if HasPrefix path (TrimRight pattern (ascii "/")) then true
    else matchesIgnored path rest

/-- Go `isCacheable(r)`.  `ToLower` is the library function `strings.ToLower`
(Unicode case mapping), taken as a parameter. -/
def isCacheable (ToLower : GoString → GoString) (r : Request) : Bool :=
  if r.Method ≠ ascii "GET" then false
  else
    let path := TrimRight r.Path (ascii "/")
    if matchesIgnored path ignoredURLs then false
    else
      let ext := ToLower (Ext r.Path)
      if staticExts.contains ext then true
      else true

/-- ASCII lower-casing, what `strings.ToLower` does on ASCII text. -/
def asciiToLower (s : GoString) : GoString :=
  s.map (fun b => if 65 ≤ b ∧ b ≤ 90 then b + 32 else b)

/-- A request with the given method and path and nothing else set. -/
def mkRequest (method path : GoString) : Request :=
  { Method := method, Host := [], Path := path, RawQuery := [], XForwardedProto := [],
    VaryCookie := none, OtherHeaders := [], OtherCookies := [] }

/-! ## MD5 (`crypto/md5`, RFC 1321) -/

/-- Addition of 32-bit words. -/
def add32 (x y : Nat) : Nat := (x + y) % 2 ^ 32

/-- Complement of a 32-bit word. -/
def not32 (x : Nat) : Nat := x ^^^ 0xffffffff

/-- Left rotation of a 32-bit word: `bits.RotateLeft32`. -/
def rotl32 (x n : Nat) : Nat := ((x <<< n) % 2 ^ 32) ||| (x >>> (32 - n))

/-- The per-round shift amounts of MD5. -/
def md5Shifts : List Nat :=
  [7, 12, 17, 22, 7, 12, 17, 22, 7, 12, 17, 22, 7, 12, 17, 22,
   5, 9, 14, 20, 5, 9, 14, 20, 5, 9, 14, 20, 5, 9, 14, 20,
   4, 11, 16, 23, 4, 11, 16, 23, 4, 11, 16, 23, 4, 11, 16, 23,
   6, 10, 15, 21, 6, 10, 15, 21, 6, 10, 15, 21, 6, 10, 15, 21]

/-- The sine table of MD5: `floor(2^32 * |sin(i + 1)|)`. -/
def md5Table : List Nat :=
  [0xd76aa478, 0xe8c7b756, 0x242070db, 0xc1bdceee,
   0xf57c0faf, 0x4787c62a, 0xa8304613, 0xfd469501,
   0x698098d8, 0x8b44f7af, 0xffff5bb1, 0x895cd7be,
   0x6b901122, 0xfd987193, 0xa679438e, 0x49b40821,
   0xf61e2562, 0xc040b340, 0x265e5a51, 0xe9b6c7aa,
   0xd62f105d, 0x02441453, 0xd8a1e681, 0xe7d3fbc8,
   0x21e1cde6, 0xc33707d6, 0xf4d50d87, 0x455a14ed,
   0xa9e3e905, 0xfcefa3f8, 0x676f02d9, 0x8d2a4c8a,
   0xfffa3942, 0x8771f681, 0x6d9d6122, 0xfde5380c,
   0xa4beea44, 0x4bdecfa9, 0xf6bb4b60, 0xbebfbc70,
   0x289b7ec6, 0xeaa127fa, 0xd4ef3085, 0x04881d05,
   0xd9d4d039, 0xe6db99e5, 0x1fa27cf8, 0xc4ac5665,
   0xf4292244, 0x432aff97, 0xab9423a7, 0xfc93a039,
   0x655b59c3, 0x8f0ccc92, 0xffeff47d, 0x85845dd1,
   0x6fa87e4f, 0xfe2ce6e0, 0xa3014314, 0x4e0811a1,
   0xf7537e82, 0xbd3af235, 0x2ad7d2bb, 0xeb86d391]

/-- The four chaining words of MD5. -/
structure Md5State where
  a : Nat
  b : Nat
  c : Nat
  d : Nat
deriving DecidableEq, Repr

/-- The initial chaining value. -/
def md5Init : Md5State :=
  { a := 0x67452301, b := 0xefcdab89, c := 0x98badcfe, d := 0x10325476 }

/-- A little-endian 32-bit word from four bytes. -/
def leWord (bs : GoString) : Nat :=
  bs.getD 0 0 + bs.getD 1 0 * 2 ^ 8 + bs.getD 2 0 * 2 ^ 16 + bs.getD 3 0 * 2 ^ 24

/-- The sixteen message words of a 64-byte block. -/
def blockWords (block : GoString) : List Nat :=
  (List.range 16).map (fun j => leWord ((block.drop (4 * j)).take 4))

/-- One of the 64 steps of the MD5 compression function. -/
def md5Step (m : List Nat) (s : Md5State) (i : Nat) : Md5State :=
  let f :=
    if i < 16 then (s.b &&& s.c) ||| (not32 s.b &&& s.d)
    else if i < 32 then (s.d &&& s.b) ||| (not32 s.d &&& s.c)
    else if i < 48 then s.b ^^^ s.c ^^^ s.d
    else s.c ^^^ (s.b ||| not32 s.d)
  let g :=
    if i < 16 then i
    else if i < 32 then (5 * i + 1) % 16
    else if i < 48 then (3 * i + 5) % 16
    else (7 * i) % 16
  let t := add32 (add32 (add32 f s.a) (md5Table.getD i 0)) (m.getD g 0)
  { a := s.d, b := add32 s.b (rotl32 t (md5Shifts.getD i 0)), c := s.b, d := s.c }

/-- The compression function: 64 steps, then the feed-forward addition. -/
def md5Block (s : Md5State) (block : GoString) : Md5State :=
  let r := (List.range 64).foldl (md5Step (blockWords block)) s
  { a := add32 s.a r.a, b := add32 s.b r.b, c := add32 s.c r.c, d := add32 s.d r.d }

/-- The little-endian bytes of a number, `n` of them. -/
def leBytes : Nat → Nat → GoString
  | 0, _ => []
  | n + 1, x => x % 256 :: leBytes n (x / 256)

/-- MD5 padding: `0x80`, zero bytes up to 56 modulo 64, then the bit length
as a 64-bit little-endian number. -/
def md5Pad (msg : GoString) : GoString :=
  msg ++ [0x80] ++ List.replicate ((119 - msg.length % 64) % 64) 0
    ++ leBytes 8 ((8 * msg.length) % 2 ^ 64)

/-- The 64-byte blocks of a padded message. -/
def md5Blocks : Nat → GoString → List GoString
  | 0, _ => []
  | n + 1, s => s.take 64 :: md5Blocks n (s.drop 64)

/-- The MD5 digest (`md5.New`, `Write`, `Sum(nil)`): 16 bytes. -/
def md5Sum (msg : GoString) : GoString :=
  let p := md5Pad msg
  let s := (md5Blocks (p.length / 64) p).foldl md5Block md5Init
  leBytes 4 s.a ++ leBytes 4 s.b ++ leBytes 4 s.c ++ leBytes 4 s.d

/-- The digit table of `encoding/hex`. -/
def hextable : GoString := ascii "0123456789abcdef"

/-- Go `hex.EncodeToString`: two lower-case hexadecimal digits per byte. -/
def hexEncodeToString (src : GoString) : GoString :=
  src.flatMap (fun v => [hextable.getD (v / 16) 0, hextable.getD (v % 16) 0])

/-- Go `strings.ToUpper` on ASCII text: the letters `a`..`z` are raised. -/
def ToUpper (s : GoString) : GoString :=
  s.map (fun b => if 97 ≤ b ∧ b ≤ 122 then b - 32 else b)

/-! ## JSON encoding (`encoding/json`) -/

/-- Go `strings.Replace(s, old, new, n)` for a non-empty `old`, the loop: the
first `n` non-overlapping occurrences of `old`, from the left, are replaced
(`n < 0`: all of them). -/
def replaceLoop (old new : GoString) : Nat → Int → GoString → GoString
  | 0, _, s => s
  | fuel + 1, n, s =>
    if n = 0 then s
    else
      match s with
      | [] => []
      | b :: rest =>
        if HasPrefix (b :: rest) old then
          new ++ replaceLoop old new fuel (n - 1) ((b :: rest).drop old.length)
        else b :: replaceLoop old new fuel n rest

/-- Go `strings.Replace(s, old, new, n)` for a non-empty `old`. -/
def Replace (s old new : GoString) (n : Int) : GoString :=
  if old = new ∨ n = 0 then s else replaceLoop old new s.length n s

/-- The value `utf8.RuneError`, U+FFFD. -/
def RuneError : Nat := 0xFFFD

/-- The table `first` of `unicode/utf8` with its accept ranges: for a leading
byte, the length of the sequence and the bounds of the second byte; `none`
for a byte that starts no multi-byte sequence. -/
def utf8Lead (b : Nat) : Option (Nat × Nat × Nat) :=
  if 0xC2 ≤ b ∧ b ≤ 0xDF then some (2, 0x80, 0xBF)
  else if b = 0xE0 then some (3, 0xA0, 0xBF)
  else if 0xE1 ≤ b ∧ b ≤ 0xEC then some (3, 0x80, 0xBF)
  else if b = 0xED then some (3, 0x80, 0x9F)
  else if 0xEE ≤ b ∧ b ≤ 0xEF then some (3, 0x80, 0xBF)
  else if b = 0xF0 then some (4, 0x90, 0xBF)
  else if 0xF1 ≤ b ∧ b ≤ 0xF3 then some (4, 0x80, 0xBF)
  else if b = 0xF4 then some (4, 0x80, 0x8F)
  else none

/-- Go `utf8.DecodeRuneInString(s)`: the first rune of `s` and its width in
bytes; `(RuneError, 1)` for an invalid encoding, `(RuneError, 0)` for the
empty string. -/
def DecodeRuneInString (s : GoString) : Nat × Nat :=
  match s with
  | [] => (RuneError, 0)
  | s0 :: t =>
    if s0 < 0x80 then (s0, 1)
    else
      match utf8Lead s0 with
      | none => (RuneError, 1)
      | some (sz, lo, hi) =>
        if s.length < sz then (RuneError, 1)
        else
          let s1 := t.getD 0 0
          if s1 < lo ∨ hi < s1 then (RuneError, 1)
          else if sz ≤ 2 then ((s0 &&& 0x1F) <<< 6 ||| (s1 &&& 0x3F), 2)
          else
            let s2 := t.getD 1 0
            if s2 < 0x80 ∨ 0xBF < s2 then (RuneError, 1)
            else if sz ≤ 3 then
              ((s0 &&& 0x0F) <<< 12 ||| (s1 &&& 0x3F) <<< 6 ||| (s2 &&& 0x3F), 3)
            else
              let s3 := t.getD 2 0
              if s3 < 0x80 ∨ 0xBF < s3 then (RuneError, 1)
              else
                ((s0 &&& 0x07) <<< 18 ||| (s1 &&& 0x3F) <<< 12 ||| (s2 &&& 0x3F) <<< 6
                  ||| (s3 &&& 0x3F), 4)

/-- The table `htmlSafeSet` of `encoding/json`: the ASCII bytes written
without escaping when HTML escaping is on (the default of `json.Marshal`). -/
def htmlSafe (b : Nat) : Bool :=
  decide (0x20 ≤ b ∧ b < 0x80 ∧ b ≠ 0x22 ∧ b ≠ 0x26 ∧ b ≠ 0x3C ∧ b ≠ 0x3E ∧ b ≠ 0x5C)

/-- What `appendString` of `encoding/json` writes for one ASCII byte (Go 1.22
and later; earlier releases write `\u0008` and `\u000c` for backspace and
form feed). -/
def jsonEscapeByte (b : Nat) : GoString :=
  if htmlSafe b then [b]
  else if b = 0x5C ∨ b = 0x22 then [0x5C, b]
  else if b = 0x08 then ascii "\\b"
  else if b = 0x0C then ascii "\\f"
  else if b = 0x0A then ascii "\\n"
  else if b = 0x0D then ascii "\\r"
  else if b = 0x09 then ascii "\\t"
  else ascii "\\u00" ++ [hextable.getD (b / 16) 0, hextable.getD (b % 16) 0]

/-- The loop of `appendString` of `encoding/json` over the rest of the
string: ASCII bytes are copied or escaped, an invalid UTF-8 byte becomes
the six-byte escape of U+FFFD, U+2028 and U+2029 are escaped, every other
rune is copied. -/
def appendStringLoop : Nat → GoString → GoString
  | 0, _ => []
  | _ + 1, [] => []
  | fuel + 1, b :: rest =>
    if b < 0x80 then jsonEscapeByte b ++ appendStringLoop fuel rest
    else
      let cs := DecodeRuneInString (b :: rest)
      if cs.1 = RuneError ∧ cs.2 = 1 then
        ascii "\\ufffd" ++ appendStringLoop fuel rest
      else if cs.1 = 0x2028 ∨ cs.1 = 0x2029 then
        ascii "\\u202" ++ [hextable.getD (cs.1 % 16) 0]
          ++ appendStringLoop fuel ((b :: rest).drop cs.2)
      else (b :: rest).take cs.2 ++ appendStringLoop fuel ((b :: rest).drop cs.2)

/-- The JSON text of a Go string: `appendString(dst, src, true)`. -/
def appendString (src : GoString) : GoString :=
  [0x22] ++ appendStringLoop src.length src ++ [0x22]

/-- The values held by the `interface{}` elements of `keyData`. -/
inductive GoValue where
  | nil : GoValue
  | bool : Bool → GoValue
  | string : GoString → GoValue
deriving DecidableEq, Repr

/-- The JSON text of one element: `null`, `true`, `false` or a string. -/
def marshalValue : GoValue → GoString
  | .nil => ascii "null"
  | .bool true => ascii "true"
  | .bool false => ascii "false"
  | .string s => appendString s

/-- The elements of a JSON array, separated by commas. -/
def marshalElems : List GoValue → GoString
  | [] => []
  | [v] => marshalValue v
  | v :: w :: rest => marshalValue v ++ [0x2C] ++ marshalElems (w :: rest)

/-- Go `json.Marshal` of a non-nil `[]interface{}`; it cannot fail on these
values. -/
def jsonMarshal (vs : List GoValue) : GoString :=
  [0x5B] ++ marshalElems vs ++ [0x5D]

/-! ## Key derivation -/

/-- Go `getUrl(r)`; `loaded` is the configuration returned by `loadConfig()`. -/
def getUrl (loaded : CacheConfig) (r : Request) : GoString :=
  let scheme :=
    if r.XForwardedProto = ascii "https" ∨ loaded.UseHTTPS = true then ascii "https"
    else ascii "http"
  let host := if loaded.Host ≠ [] then loaded.Host else r.Host
  scheme ++ ascii "://" ++ host ++ r.Path

/-- The text that `getCacheKeyWithConfig` hashes (`jsonStr`). -/
def hashData (loaded : CacheConfig) (r : Request) (config : CacheConfig) : GoString :=
  let httpsFlag := decide (r.XForwardedProto = ascii "https") || config.UseHTTPS
  let url := getUrl loaded r
  let varyString : GoValue :=
    match r.VaryCookie with
    | some cookie => .string cookie.val
    | none => .nil
  let keyData := [.bool httpsFlag, .string url, varyString]
  let jsonBytes := jsonMarshal keyData
  Replace jsonBytes (ascii "/") (ascii "\\/") (-1)

/-- Go `getCacheKeyWithConfig(r, config)`; `loaded` is the configuration
returned by `loadConfig()`, which `getUrl` reads. -/
def getCacheKeyWithConfig (loaded : CacheConfig) (r : Request) (config : CacheConfig) :
    GoString :=
  ToUpper (hexEncodeToString (md5Sum (hashData loaded r config)))

/-! ## Cache entries and the local tier (`github.com/patrickmn/go-cache`) -/

/-- Go `CacheEntry`.  `Headers` is a map, held as a list of its key-value
pairs. -/
structure CacheEntry where
  Content : GoString
  Headers : List (GoString × GoString)
  Expired : Bool
deriving DecidableEq, Repr

/-- The `Item` of go-cache: the stored object and its deadline in
nanoseconds, `0` for an item that never expires. -/
structure Item where
  Object : CacheEntry
  Expiration : Int
deriving DecidableEq, Repr

/-- The `cache.Cache` behind `localCache`: its default expiration, the
interval of its janitor and the map `items`, held as a list of pairs in which
the first pair of a key is the one in the map. -/
structure LocalCache where
  defaultExpiration : Int
  cleanupInterval : Int
  items : List (GoString × Item)
deriving DecidableEq, Repr

namespace LocalCache

/-- Go `cache.New(defaultExpiration, cleanupInterval)`. -/
def New (defaultExpiration cleanupInterval : Int) : LocalCache :=
  { defaultExpiration := defaultExpiration, cleanupInterval := cleanupInterval, items := [] }

/-- Go `(*cache).Get(k)` at time `now`: an item whose deadline has passed is
reported as not found, whether or not the janitor has removed it. -/
def Get (c : LocalCache) (k : GoString) (now : Int) : Option CacheEntry :=
  match c.items.lookup k with
  | none => none
  | some item =>
    if item.Expiration > 0 ∧ now > item.Expiration then none
    else some item.Object

/-- Go `(*cache).Set(k, x, d)` at time `now`: `d = 0` (`DefaultExpiration`)
stands for the default, and a duration that is not positive means no
deadline. -/
def Set (c : LocalCache) (k : GoString) (x : CacheEntry) (d : Int) (now : Int) : LocalCache :=
  let d := if d = 0 then c.defaultExpiration else d
  let e := if d > 0 then now + d else 0
  { c with items := (k, { Object := x, Expiration := e }) :: c.items.filter (fun kv => kv.1 ≠ k) }

/-- The test of `DeleteExpired` on one item. -/
def expired (item : Item) (now : Int) : Bool :=
  decide (item.Expiration > 0 ∧ now > item.Expiration)

end LocalCache

/-- The callback that `init` registers with `localCache.OnEvicted` when
`config.UseStale` is set: the evicted entry is marked `Expired` and stored
again for `config.StaleExpiry`. -/
def onEvicted (config : CacheConfig) (now : Int) (c : LocalCache) (key : GoString)
    (value : CacheEntry) : LocalCache :=
  c.Set key { value with Expired := true } config.StaleExpiry now

/-- Go `(*cache).DeleteExpired()` at time `now`, which the janitor of go-cache
runs every `cleanupInterval`: the items whose deadline has passed are deleted
from the map, and then the eviction callback, when one is registered
(`config.UseStale`), is called on each of them. -/
def DeleteExpired (config : CacheConfig) (c : LocalCache) (now : Int) : LocalCache :=
  let evictedItems := c.items.filter (fun kv => LocalCache.expired kv.2 now)
  let c1 := { c with items := c.items.filter (fun kv => !LocalCache.expired kv.2 now) }
  if config.UseStale then
    evictedItems.foldl (fun c kv => onEvicted config now c kv.1 kv.2.Object) c1
  else c1

/-- The local cache as `init` creates it:
`cache.New(config.CacheTTL, config.StaleExpiry)`. -/
def initLocalCache (config : CacheConfig) : LocalCache :=
  LocalCache.New config.CacheTTL config.StaleExpiry

/-- The janitor of go-cache, started by `cache.New` only for a positive
cleanup interval: its ticks, at the given times, each run `DeleteExpired`. -/
def runJanitor (config : CacheConfig) (c : LocalCache) (ticks : List Int) : LocalCache :=
  if c.cleanupInterval > 0 then ticks.foldl (DeleteExpired config) c else c

/-! ## The response writer (`net/http`) -/

/-- Go `validHeaderFieldByte` of `net/textproto`: the token bytes of RFC 7230. -/
def validHeaderFieldByte (c : Nat) : Bool :=
  decide ((0x30 ≤ c ∧ c ≤ 0x39) ∨ (0x41 ≤ c ∧ c ≤ 0x5A) ∨ (0x61 ≤ c ∧ c ≤ 0x7A))
    || (ascii "!#$%&'*+-.^_|~").contains c || c == 0x60

/-- The loop of `canonicalMIMEHeaderKey`: the first letter and every letter
after a dash in upper case, the other letters in lower case. -/
def canonicalLoop : Bool → GoString → GoString
  | _, [] => []
  | upper, c :: rest =>
    let c :=
      if upper ∧ 0x61 ≤ c ∧ c ≤ 0x7A then c - 32
      else if ¬ upper ∧ 0x41 ≤ c ∧ c ≤ 0x5A then c + 32
      else c
    c :: canonicalLoop (c == 0x2D) rest

/-- Go `textproto.CanonicalMIMEHeaderKey(s)`: a key holding a byte that is not
a token byte is returned unchanged. -/
def CanonicalMIMEHeaderKey (s : GoString) : GoString :=
  if s.all validHeaderFieldByte then canonicalLoop true s else s

/-- The state of an `http.ResponseWriter`: the header map `w.Header()`, the
status and the headers as sent (`none` until `WriteHeader` or the first
`Write`), and the body written so far. -/
structure ResponseWriter where
  Header : List (GoString × GoString)
  Status : Option Nat
  SentHeader : List (GoString × GoString)
  Body : GoString
deriving DecidableEq, Repr

namespace ResponseWriter

/-- A writer on which nothing has been set or written. -/
def fresh : ResponseWriter := { Header := [], Status := none, SentHeader := [], Body := [] }

/-- Go `w.Header().Set(key, value)`. -/
def HeaderSet (w : ResponseWriter) (key value : GoString) : ResponseWriter :=
  let k := CanonicalMIMEHeaderKey key
  { w with Header := (k, value) :: w.Header.filter (fun kv => kv.1 ≠ k) }

/-- Go `w.Header().Get(key)`: empty when the key is not set. -/
def HeaderGet (w : ResponseWriter) (key : GoString) : GoString :=
  (w.Header.lookup (CanonicalMIMEHeaderKey key)).getD []

/-- Go `w.WriteHeader(code)`: the first call sends the status and the header
map as it stands; later calls change nothing. -/
def WriteHeader (w : ResponseWriter) (code : Nat) : ResponseWriter :=
  match w.Status with
  | some _ => w
  | none => { w with Status := some code, SentHeader := w.Header }

/-- Go `w.Write(b)`: sends status 200 first when no status was sent. -/
def Write (w : ResponseWriter) (b : GoString) : ResponseWriter :=
  let w := w.WriteHeader 200
  { w with Body := w.Body ++ b }

end ResponseWriter

/-! ## The world outside the process -/

/-- The response `httpClient.Do` delivers: the two headers the program reads
and the bytes of the body (`none` when reading the body fails before its
end). -/
structure OriginResponse where
  ContentEncoding : GoString
  ContentType : GoString
  Body : Option GoString
deriving DecidableEq, Repr

/-- The outcome of decoding a gzip stream: `gzip.NewReader` fails on the
header, or `io.ReadAll` fails on the data, or the decompressed bytes. -/
inductive GzipResult where
  | headerError : GzipResult
  | readError : GzipResult
  | ok : GoString → GzipResult
deriving DecidableEq, Repr

/-- What the handler meets outside its own code: the library functions
`strings.ToLower` and gzip decoding, the Redis client `rdb` (`none` for the
nil client; a lookup gives `none` for an error, the missing key included),
`http.NewRequest` (whether it accepts the method and URL), the origin behind
`httpClient.Do` (`none` for an error), and the texts of the measured
durations, by the name of the header or field they are written to. -/
structure World where
  ToLower : GoString → GoString
  gunzip : GoString → GzipResult
  rdb : Option (GoString → Option GoString)
  newRequestOk : GoString → GoString → Bool
  httpDo : GoString → GoString → Request → Option OriginResponse
  elapsed : GoString → GoString

/-- What a request handler does to the outside, in order. -/
inductive Event where
  | redisGet : GoString → Event
  | proxyRequest : Request → Event
  | serveContent : CacheEntry → Event
deriving DecidableEq

/-- The goroutine `handleRequest` starts for a stale hit: it captures the key
and the request. -/
structure RefreshTask where
  cacheKey : GoString
  r : Request
deriving DecidableEq

/-- The state after `handleRequest` has returned: the response writer, the
local cache, the events in order, and the goroutines started. -/
structure Outcome where
  w : ResponseWriter
  localCache : LocalCache
  trace : List Event
  spawned : List RefreshTask

/-! ## Origin fetch and response emission -/

/-- Go `proxyRequest(w, r)`: `none` stands for a returned error.  `config` is
the configuration returned by `loadConfig()`. -/
def proxyRequest (W : World) (config : CacheConfig) (r : Request) : Option CacheEntry :=
  let scheme := if config.UseHTTPS then ascii "https" else ascii "http"
  let backendURL := scheme ++ ascii "://" ++ config.Host ++ r.Path
  if !W.newRequestOk r.Method backendURL then none
  else
    match W.httpDo r.Method backendURL r with
    | none => none
    | some resp =>
      let decoded : Option GoString :=
        if resp.ContentEncoding = ascii "gzip" then
          match resp.Body with
          | none => none
          | some raw =>
            match W.gunzip raw with
            | .ok body => some body
            | _ => none
        else resp.Body
      match decoded with
      | none => none
      | some body =>
        some { Content := body, Headers := [(ascii "Content-Type", resp.ContentType)],
               Expired := false }

/-- Go `fmt.Sprintf("%d", n)` for a length. -/
def formatInt (n : Nat) : GoString := ascii (toString n)

/-- The text `debugInfo` of `serveContent`. -/
def debugInfo (W : World) (w : ResponseWriter) (content : GoString) : GoString :=
  ascii "\n<!-- Fast-Cache Debug Info:\n     Time: " ++ W.elapsed (ascii "Debug-Time")
    ++ ascii "\n     Size: " ++ formatInt content.length
    ++ ascii " bytes\n     Cache: " ++ w.HeaderGet (ascii "Fast-Cache")
    ++ ascii "\n     Key: " ++ w.HeaderGet (ascii "Fast-Cache-Key")
    ++ ascii "\n     URL: " ++ w.HeaderGet (ascii "Fast-Cache-URL")
    ++ ascii "\n-->"

/-- Go `serveContent(w, entry, startTime)`; `config` is the configuration
returned by `loadConfig()`. -/
def serveContent (W : World) (config : CacheConfig) (w : ResponseWriter) (entry : CacheEntry) :
    ResponseWriter :=
  let w := entry.Headers.foldl (fun w kv => w.HeaderSet kv.1 kv.2) w
  let w := w.HeaderSet (ascii "Content-Type") (ascii "text/html; charset=UTF-8")
  let w := w.HeaderSet (ascii "Fast-Cache") (ascii "HIT")
  let w := w.HeaderSet (ascii "Fast-Cache-Time") (W.elapsed (ascii "Fast-Cache-Time"))
  let w := w.HeaderSet (ascii "Fast-Cache-Length") (formatInt entry.Content.length)
  let content :=
    if config.Debug then
      Replace entry.Content (ascii "</body>") (debugInfo W w entry.Content ++ ascii "</body>") 1
    else entry.Content
  w.Write content

/-! ## The request handler -/

/-- The burst of `requestLimiter`: `rate.NewLimiter(rate.Limit(250), 500)`. -/
def requestLimiterBurst : Nat := 500

/-- Whether `requestLimiter.Wait(context.Background())` returns an error.  It
blocks until a token is there; with a context that is never cancelled and has
no deadline it fails only when the one token asked for exceeds the burst. -/
def requestLimiterWaitFails : Bool := decide (1 > requestLimiterBurst)

/-- The deferred function of `handleRequest`: it sets `X-Response-Time` on the
header map when the handler returns. -/
def deferred (W : World) (o : Outcome) : Outcome :=
  { o with w := o.w.HeaderSet (ascii "X-Response-Time") (W.elapsed (ascii "X-Response-Time")) }

/-- The entry `handleRequest` builds from the remote tier (lines 337-354):
`none` when `rdb` is nil, when `rdb.Get(ctx, cacheKey).Bytes()` returns an
error, when `gzip.NewReader` gives no reader, or when `io.ReadAll` fails. -/
def redisEntry (W : World) (cacheKey : GoString) : Option CacheEntry :=
  match W.rdb with
  | none => none
  | some get =>
    match get cacheKey with
    | none => none
    | some content =>
      match W.gunzip content with
      | .ok decompressed =>
        some { Content := decompressed,
               Headers := [(ascii "Content-Type", ascii "text/html; charset=UTF-8")],
               Expired := false }
      | _ => none

/-- The Redis reads of `handleRequest`: one `rdb.Get(ctx, cacheKey)` when
`rdb` is not nil. -/
def redisTrace (W : World) (cacheKey : GoString) : List Event :=
  match W.rdb with
  | none => []
  | some _ => [Event.redisGet cacheKey]

/-- The last part of `handleRequest` (lines 367-386): the request is proxied
to the backend, a failure is answered with 502, a fetched entry is stored in
the local cache when that is enabled, and served. -/
def fetchFromOrigin (W : World) (config : CacheConfig) (localCache : LocalCache) (now : Int)
    (r : Request) (cacheKey : GoString) (w : ResponseWriter) (trace : List Event) : Outcome :=
  match proxyRequest W config r with
  | none =>
    { w := w.WriteHeader 502, localCache := localCache,
      trace := trace ++ [Event.proxyRequest r], spawned := [] }
  | some entry =>
    let w := w.HeaderSet (ascii "X-Proxy-Time") (W.elapsed (ascii "X-Proxy-Time"))
    let localCache :=
      if config.UseCache then localCache.Set cacheKey entry config.CacheTTL now
      else localCache
    { w := serveContent W config w entry, localCache := localCache,
      trace := trace ++ [Event.proxyRequest r, Event.serveContent entry], spawned := [] }

/-- Go `handleRequest(w, r)` at time `now`, on a fresh response writer.
`config` is the configuration returned by `loadConfig()` and `localCache` the
package variable of that name. -/
def handleRequest (W : World) (config : CacheConfig) (localCache : LocalCache) (now : Int)
    (r : Request) : Outcome :=
  let w := ResponseWriter.fresh
  if requestLimiterWaitFails then
    { w := w.WriteHeader 503, localCache := localCache, trace := [], spawned := [] }
  else if !isCacheable W.ToLower r then
    let w := if config.Debug then w.HeaderSet (ascii "Fast-Cache") (ascii "FALSE") else w
    match proxyRequest W config r with
    | none =>
      deferred W { w := w.WriteHeader 502, localCache := localCache,
                   trace := [Event.proxyRequest r], spawned := [] }
    | some entry =>
      let w := w.HeaderSet (ascii "X-Proxy-Time") (W.elapsed (ascii "X-Proxy-Time"))
      deferred W { w := serveContent W config w entry, localCache := localCache,
                   trace := [Event.proxyRequest r, Event.serveContent entry], spawned := [] }
  else
    let cacheKey := getCacheKeyWithConfig config r config
    match (if config.UseCache then localCache.Get cacheKey now else none) with
    | some cacheEntry =>
      let w := w.HeaderSet (ascii "X-Cache-Lookup-Time")
        (W.elapsed (ascii "X-Cache-Lookup-Time"))
      let spawned := if cacheEntry.Expired then [{ cacheKey := cacheKey, r := r }] else []
      deferred W { w := serveContent W config w cacheEntry, localCache := localCache,
                   trace := [Event.serveContent cacheEntry], spawned := spawned }
    | none =>
      match redisEntry W cacheKey with
      | some entry =>
        let localCache :=
          if config.UseCache then localCache.Set cacheKey entry config.CacheTTL now
          else localCache
        deferred W { w := serveContent W config w entry, localCache := localCache,
                     trace := redisTrace W cacheKey ++ [Event.serveContent entry],
                     spawned := [] }
      | none =>
        deferred W (fetchFromOrigin W config localCache now r cacheKey w
          (redisTrace W cacheKey))

/-- The goroutine of a stale hit, run at time `now` on the local cache as it
is then: `proxyRequest(w, r)`, and on success
`localCache.Set(cacheKey, *entry, config.CacheTTL)`.  The result is the local
cache and the events of the run. -/
def runRefresh (W : World) (config : CacheConfig) (task : RefreshTask)
    (localCache : LocalCache) (now : Int) : LocalCache × List Event :=
  match proxyRequest W config task.r with
  | some entry =>
    (localCache.Set task.cacheKey entry config.CacheTTL now, [Event.proxyRequest task.r])
  | none => (localCache, [Event.proxyRequest task.r])

/-! ## Auxiliary definitions of the statements -/

/-- Replacing every `/` by `\/`, byte by byte. -/
def escapeSlashes (s : GoString) : GoString :=
  s.flatMap (fun b => if b = 47 then [92, 47] else [b])

/-- The byte a JSON token written for a cookie-value byte stands for: the
first byte, or the value of the two hexadecimal digits of a `\u00XX` escape. -/
def tokenByte (s : GoString) : Nat :=
  if s.headD 0 = 0x5C then
    (hextable.indexOf (s.getD 4 0)) * 16 + hextable.indexOf (s.getD 5 0)
  else s.headD 0

/-- The value of two upper-case hexadecimal digits. -/
def unhexPair (s : GoString) : Nat :=
  (ascii "0123456789ABCDEF").indexOf (s.getD 0 0) * 16
    + (ascii "0123456789ABCDEF").indexOf (s.getD 1 0)

/-! ## A sample world -/

/-- A request: `GET /p?x=1` to `shop.test` with a forwarded-protocol
header and the cookie `X-Magento-Vary=abc`. -/
def detRequest1 : Request :=
  { Method := ascii "GET", Host := ascii "shop.test", Path := ascii "/p",
    RawQuery := ascii "x=1", XForwardedProto := ascii "https",
    VaryCookie := some ⟨ascii "abc", by decide⟩,
    OtherHeaders := [(ascii "Accept", ascii "text/html")],
    OtherCookies := [(ascii "sid", ascii "1")] }

/-- Another request: `HEAD /p` to the same host with the same cookie
and nothing else in common. -/
def detRequest2 : Request :=
  { Method := ascii "HEAD", Host := ascii "shop.test", Path := ascii "/p",
    RawQuery := [], XForwardedProto := [],
    VaryCookie := some ⟨ascii "abc", by decide⟩,
    OtherHeaders := [], OtherCookies := [(ascii "lang", ascii "en")] }

/-- Go `time.Second` times `n`, in nanoseconds. -/
def seconds (n : Int) : Int := n * 1000000000

/-- The configuration `loadConfig` builds from its defaults with
`USE_CACHE=true` and `HOST=backend.test`: https, debug off, a fresh TTL of
60 s, stale retention on with a stale TTL of 432000 s. -/
def sampleConfig : CacheConfig :=
  { UseHTTPS := true, Host := ascii "backend.test", Prefix := ascii "b30_", Debug := false,
    CacheTTL := seconds 60, UseCache := true, UseStale := true,
    StaleExpiry := seconds 432000 }

/-- One byte of the CRC-32 (IEEE) of gzip. -/
def crc32Byte (crc b : Nat) : Nat :=
  (List.range 8).foldl
    (fun c _ => if c % 2 = 1 then (c >>> 1) ^^^ 0xEDB88320 else c >>> 1) (crc ^^^ b)

/-- The CRC-32 (IEEE) checksum of gzip. -/
def crc32 (s : GoString) : Nat := (s.foldl crc32Byte 0xFFFFFFFF) ^^^ 0xFFFFFFFF

/-- A gzip stream of `b` (shorter than 65536 bytes): the ten-byte header
without optional fields, one stored deflate block, CRC-32 and length. -/
def storedGzip (b : GoString) : GoString :=
  [0x1f, 0x8b, 8, 0, 0, 0, 0, 0, 0, 0xff, 1] ++ leBytes 2 b.length
    ++ leBytes 2 (b.length ^^^ 0xFFFF) ++ b ++ leBytes 4 (crc32 b) ++ leBytes 4 b.length

/-- A gzip decoder for the sample world.  It decodes the streams made of a
header without optional fields and one stored deflate block, as
`compress/gzip` does; every other stream is reported as an error, although
`compress/gzip` decodes many of them, so this decoder stands in for the
library in examples only. -/
def storedGunzip (s : GoString) : GzipResult :=
  if s.length < 10 ∨ s.take 4 ≠ [0x1f, 0x8b, 8, 0] then GzipResult.headerError
  else
    let d := s.drop 10
    let len := d.getD 1 0 + d.getD 2 0 * 256
    let nlen := d.getD 3 0 + d.getD 4 0 * 256
    let data := (d.drop 5).take len
    let trailer := d.drop (5 + len)
    if d.take 1 = [1] ∧ nlen = len ^^^ 0xFFFF ∧ d.length = 5 + len + 8
        ∧ leWord (trailer.take 4) = crc32 data ∧ leWord (trailer.drop 4) = len then
      GzipResult.ok data
    else GzipResult.readError

/-- A world for examples: Redis holds the gzip stream of `remote page` under
every key, and the origin answers every request with the gzip stream of
`<html><body>origin</body></html>` and `Content-Encoding: gzip`. -/
def sampleWorld : World :=
  { ToLower := asciiToLower
    gunzip := storedGunzip
    rdb := some (fun _ => some (storedGzip (ascii "remote page")))
    newRequestOk := fun _ _ => true
    httpDo := fun _ _ _ =>
      some { ContentEncoding := ascii "gzip", ContentType := ascii "text/html",
             Body := some (storedGzip (ascii "<html><body>origin</body></html>")) }
    elapsed := fun _ => ascii "0.10ms" }

/-- The sample world with Redis answering every read with an error and the
origin refusing every connection. -/
def downWorld : World :=
  { sampleWorld with rdb := some (fun _ => none), httpDo := fun _ _ _ => none }

/-- A cacheable request: `GET /page` to `shop.test`. -/
def pageRequest : Request :=
  { mkRequest (ascii "GET") (ascii "/page") with Host := ascii "shop.test" }

/-- The key of `pageRequest` under `sampleConfig`. -/
def pageKey : GoString := getCacheKeyWithConfig sampleConfig pageRequest sampleConfig

/-- An entry as `proxyRequest` builds it, with the given content. -/
def pageEntry (content : GoString) : CacheEntry :=
  { Content := content, Headers := [(ascii "Content-Type", ascii "text/html")],
    Expired := false }

/-- A local cache that holds, from time 0 and for the fresh TTL, the entry
`local page` under `pageKey`. -/
def warmCache : LocalCache :=
  (initLocalCache sampleConfig).Set pageKey (pageEntry (ascii "local page"))
    sampleConfig.CacheTTL 0

/-- The cache `warmCache` after the first run of the janitor, at 432000 s:
the entry under `pageKey`, set at time 0 for 60 s, is stale. -/
def staleCache : LocalCache := runJanitor sampleConfig warmCache [seconds 432000]

/-- The sample world with Redis answering every read with an error; the origin
is up. -/
def redisDownWorld : World := { sampleWorld with rdb := some (fun _ => none) }

/-- The sample world with Redis holding bytes that are no gzip stream. -/
def redisGarbageWorld : World :=
  { sampleWorld with rdb := some (fun _ => some (ascii "not gzip")) }

/-- The sample configuration with `DEBUG=true`. -/
def debugConfig : CacheConfig := { sampleConfig with Debug := true }

/-- An entry that stores, next to a `Content-Type` of its own, a header named
`Fast-Cache` and a header `X-Frame-Options`. -/
def labelledEntry : CacheEntry :=
  { Content := ascii "{}",
    Headers := [(ascii "Content-Type", ascii "application/json"),
                (ascii "Fast-Cache", ascii "MISS"),
                (ascii "X-Frame-Options", ascii "DENY")],
    Expired := false }

/-- An entry whose header map has the two keys `x-a` and `X-A`, which are one
header name to `net/http`. -/
def twiceNamedEntry : CacheEntry :=
  { Content := ascii "{}",
    Headers := [(ascii "x-a", ascii "1"), (ascii "X-A", ascii "2")],
    Expired := false }

/-- A request that is not cacheable: `POST /checkout/cart` to `shop.test`. -/
def cartRequest : Request :=
  { mkRequest (ascii "POST") (ascii "/checkout/cart") with Host := ascii "shop.test" }

/-! ## The key prefix -/

/-- The package variable `corePrefix`. -/
def corePrefix : GoString := ascii "zc:k:"

/-- The package variable `prefix` as `init` sets it:
`corePrefix + config.Prefix`.  No other line of the program reads it. -/
def combinedPrefix (config : CacheConfig) : GoString := corePrefix ++ config.Prefix

/-- The keys of the Redis reads in a trace, in order. -/
def redisKeys : List Event → List GoString
  | [] => []
  | Event.redisGet key :: rest => key :: redisKeys rest
  | _ :: rest => redisKeys rest

/-! ## Configuration from the environment -/

/-- The process environment as `os.Getenv` reads it: the value of a variable,
empty when the variable is not set. -/
abbrev Env := GoString → GoString

/-- Go `getEnv(key, defaultValue)`. -/
def getEnv (env : Env) (key defaultValue : GoString) : GoString :=
  if env key ≠ [] then env key else defaultValue

/-- Go `getEnvBool(key, defaultValue)`. -/
def getEnvBool (env : Env) (key : GoString) (defaultValue : Bool) : Bool :=
  if env key ≠ [] then decide (env key = ascii "true" ∨ env key = ascii "1")
  else defaultValue

/-- The table `space` of `fmt`: the runes `isSpace` accepts. -/
def isSpace (r : Nat) : Bool :=
  decide ((0x09 ≤ r ∧ r ≤ 0x0d) ∨ r = 0x20 ∨ r = 0x85 ∨ r = 0xa0 ∨ r = 0x1680
    ∨ (0x2000 ≤ r ∧ r ≤ 0x200a) ∨ (0x2028 ≤ r ∧ r ≤ 0x2029) ∨ r = 0x202f ∨ r = 0x205f
    ∨ r = 0x3000)

/-- The errors `fmt.Sscanf` reports on the path taken here. -/
inductive ScanError where
  | unexpectedNewline : ScanError
  | tooFewOperands : ScanError
deriving DecidableEq, Repr

/-- Go `(*ss).SkipSpace` of `fmt`, as `Sscanf` runs it (a newline is not
space): `true` when it reports `unexpected newline`, which it does for a
newline after leading space; it stops without error at the first rune that
is no space and at the end of the input. -/
def skipSpaceFails : Nat → GoString → Bool
  | 0, _ => false
  | _ + 1, [] => false
  | fuel + 1, b :: rest =>
    let cs := DecodeRuneInString (b :: rest)
    if cs.1 = 0x0A then true
    else if isSpace cs.1 then skipSpaceFails fuel ((b :: rest).drop cs.2)
    else false

/-- Go `fmt.Sscanf(str, "%d")`, called with no operand after the format: the
number of operands filled and the error.  `doScanf` reaches the verb `%d`,
skips leading space, and then finds that no operand is left
(`numProcessed >= len(a)`): it reports `too few operands` before it scans
anything, so nothing is ever filled. -/
def Sscanf (str : GoString) : Nat × Option ScanError :=
  if skipSpaceFails str.length str then (0, some ScanError.unexpectedNewline)
  else (0, some ScanError.tooFewOperands)

/-- Go `getEnvInt(key, defaultValue)`: `i` is the first result of `Sscanf`,
the number of operands filled. -/
def getEnvInt (env : Env) (key : GoString) (defaultValue : Int) : Int :=
  if env key ≠ [] then
    match Sscanf (env key) with
    | (i, none) => i
    | (_, some _) => defaultValue
  else defaultValue

/-- Go `loadConfig()`, the first call, for the fields of `CacheConfig` kept
here. -/
def loadConfig (env : Env) : CacheConfig :=
  { UseHTTPS := getEnvBool env (ascii "HTTPS") true
    Host := getEnv env (ascii "HOST") []
    Prefix := getEnv env (ascii "PREFIX") (ascii "b30_")
    Debug := getEnvBool env (ascii "DEBUG") false
    CacheTTL := seconds (getEnvInt env (ascii "CACHE_TTL") 60)
    UseCache := getEnvBool env (ascii "USE_CACHE") false
    UseStale := getEnvBool env (ascii "USE_STALE") true
    StaleExpiry := seconds (getEnvInt env (ascii "STALE_TTL") 432000) }

/-- An environment in which only `CACHE_TTL=120` is set. -/
def ttlEnv : Env := fun key => if key = ascii "CACHE_TTL" then ascii "120" else []

/-! ## Theorems: classifier -/

theorem matchesIgnored_eq_false_iff (path : GoString) (pats : List GoString) :
    matchesIgnored path pats = false ↔
      ∀ pat ∈ pats, HasPrefix path (TrimRight pat (ascii "/")) = false := by
  induction pats with
  | nil => simp [matchesIgnored]
  | cons p ps ih =>
    simp only [matchesIgnored, List.mem_cons, forall_eq_or_imp]
    by_cases h : HasPrefix path (TrimRight p (ascii "/")) = true
    · simp [h]
    · simp [h, ih]

/-- C1: `isCacheable` is true exactly for a GET whose path, trailing `/`
stripped, starts with no entry of `ignoredURLs` (that entry's trailing `/`
stripped); the static-extension rule changes nothing.  POST is never
cacheable, `GET /admin/x` and `GET /admin/script.js` are not, `GET /style.css`
is. -/
theorem isCacheable_iff (ToLower : GoString → GoString) (r : Request) :
    (isCacheable ToLower r = true ↔
      (r.Method = ascii "GET" ∧
        ∀ pat ∈ ignoredURLs,
          HasPrefix (TrimRight r.Path (ascii "/")) (TrimRight pat (ascii "/")) = false)) ∧
    isCacheable ToLower { r with Method := ascii "POST" } = false ∧
    isCacheable ToLower (mkRequest (ascii "GET") (ascii "/admin/x")) = false ∧
    isCacheable ToLower (mkRequest (ascii "GET") (ascii "/admin/script.js")) = false ∧
    isCacheable ToLower (mkRequest (ascii "GET") (ascii "/style.css")) = true := by
  refine ⟨?_, ?_, ?_, ?_, ?_⟩
  · unfold isCacheable
    by_cases hm : r.Method = ascii "GET"
    · simp only [hm, ne_eq, not_true_eq_false, if_false, true_and]
      rw [← matchesIgnored_eq_false_iff]
      cases matchesIgnored (TrimRight r.Path (ascii "/")) ignoredURLs <;> simp
    · simp [hm]
  · have : ascii "POST" ≠ ascii "GET" := by decide
    simp [isCacheable, this]
  · have h : matchesIgnored (TrimRight (ascii "/admin/x") (ascii "/")) ignoredURLs = true := by
      decide
    simp [isCacheable, mkRequest, h]
  · have h : matchesIgnored (TrimRight (ascii "/admin/script.js") (ascii "/")) ignoredURLs
        = true := by decide
    simp [isCacheable, mkRequest, h]
  · have h : matchesIgnored (TrimRight (ascii "/style.css") (ascii "/")) ignoredURLs
        = false := by decide
    simp [isCacheable, mkRequest, h]

/-- C1 at a concrete request: `GET /cf/page/` is excluded by the entry `/cf/`. -/
theorem isCacheable_iff_witness :
    isCacheable asciiToLower (mkRequest (ascii "GET") (ascii "/cf/page/")) = false ∧
    ¬ (∀ pat ∈ ignoredURLs,
        HasPrefix (TrimRight (ascii "/cf/page/") (ascii "/")) (TrimRight pat (ascii "/"))
          = false) := by
  have h := (isCacheable_iff asciiToLower (mkRequest (ascii "GET") (ascii "/cf/page/"))).1
  constructor
  · decide
  · intro hall
    have hc := h.2 ⟨rfl, hall⟩
    revert hc
    decide

/-! ## Theorems: key derivation -/

theorem replaceLoop_slash (fuel : Nat) (n : Int) (s : GoString) (hn : n < 0)
    (hf : s.length ≤ fuel) :
    replaceLoop [47] [92, 47] fuel n s = escapeSlashes s := by
  induction s generalizing fuel n with
  | nil => cases fuel <;> simp [replaceLoop, escapeSlashes, hn.ne]
  | cons b rest ih =>
    cases fuel with
    | zero => simp at hf
    | succ fuel =>
      have hf2 : rest.length ≤ fuel := by simpa using hf
      have hn2 : n - 1 < 0 := by omega
      by_cases hb : b = 47
      · subst hb
        simp [replaceLoop, hn.ne, HasPrefix, ih fuel (n - 1) hn2 hf2, escapeSlashes]
      · simp [replaceLoop, hn.ne, HasPrefix, hb, ih fuel n hn hf2, escapeSlashes]

theorem Replace_slash (s : GoString) :
    Replace s (ascii "/") (ascii "\\/") (-1) = escapeSlashes s := by
  have h1 : ascii "/" = [47] := by decide
  have h2 : ascii "\\/" = [92, 47] := by decide
  simp only [Replace, h1, h2]
  rw [if_neg (by decide)]
  exact replaceLoop_slash s.length (-1) s (by decide) (le_refl _)

theorem leBytes_length (n x : Nat) : (leBytes n x).length = n := by
  induction n generalizing x with
  | zero => rfl
  | succ n ih => simp [leBytes, ih]

theorem leBytes_lt (n x : Nat) : ∀ b ∈ leBytes n x, b < 256 := by
  induction n generalizing x with
  | zero => simp [leBytes]
  | succ n ih =>
    intro b hb
    simp only [leBytes, List.mem_cons] at hb
    rcases hb with h | h
    · omega
    · exact ih _ b h

theorem md5Sum_length (msg : GoString) : (md5Sum msg).length = 16 := by
  simp [md5Sum, leBytes_length]

theorem md5Sum_lt (msg : GoString) : ∀ b ∈ md5Sum msg, b < 256 := by
  intro b hb
  simp only [md5Sum, List.mem_append] at hb
  rcases hb with ((h | h) | h) | h <;> exact leBytes_lt _ _ b h

theorem hexEncodeToString_length (src : GoString) :
    (hexEncodeToString src).length = 2 * src.length := by
  induction src with
  | nil => rfl
  | cons v rest ih =>
    simp only [hexEncodeToString, List.flatMap_cons, List.length_append, List.length_cons,
      List.length_nil] at ih ⊢
    omega

set_option maxRecDepth 100000 in
theorem upperHex_digit :
    ∀ v < 256, ∀ c ∈ ToUpper [hextable.getD (v / 16) 0, hextable.getD (v % 16) 0],
      c ∈ ascii "0123456789ABCDEF" := by
  decide!

theorem ToUpper_hexEncodeToString_mem (src : GoString) (h : ∀ b ∈ src, b < 256) :
    ∀ c ∈ ToUpper (hexEncodeToString src), c ∈ ascii "0123456789ABCDEF" := by
  induction src with
  | nil => simp [hexEncodeToString, ToUpper]
  | cons v rest ih =>
    intro c hc
    have hsplit : ToUpper (hexEncodeToString (v :: rest)) =
        ToUpper [hextable.getD (v / 16) 0, hextable.getD (v % 16) 0]
          ++ ToUpper (hexEncodeToString rest) := by
      simp [hexEncodeToString, ToUpper]
    rw [hsplit, List.mem_append] at hc
    rcases hc with hc | hc
    · exact upperHex_digit v (h v (List.mem_cons_self _ _)) c hc
    · exact ih (fun b hb => h b (List.mem_cons_of_mem _ hb)) c hc

/-- C2: the key is the upper-case hexadecimal MD5 digest of the JSON text of
the triple `[httpsFlag, fullURL, variation token or null]` with every `/`
written `\/`, where `fullURL` is scheme, `://`, host and path; for https,
host `example.com`, path `/a` and no cookie the hashed text is
`[true,"https:\/\/example.com\/a",null]`; the key always has 32 characters,
all among `0-9A-F`. -/
theorem getCacheKeyWithConfig_spec (loaded : CacheConfig) (r : Request)
    (config : CacheConfig) :
    getCacheKeyWithConfig loaded r config =
      ToUpper (hexEncodeToString (md5Sum (escapeSlashes (jsonMarshal
        [GoValue.bool (decide (r.XForwardedProto = ascii "https") || config.UseHTTPS),
         GoValue.string
           ((if r.XForwardedProto = ascii "https" ∨ loaded.UseHTTPS = true then ascii "https"
              else ascii "http")
             ++ ascii "://" ++ (if loaded.Host = [] then r.Host else loaded.Host) ++ r.Path),
         (match r.VaryCookie with
          | some cookie => GoValue.string cookie.val
          | none => GoValue.nil)])))) ∧
    hashData { loaded with UseHTTPS := true, Host := [] }
        { r with Host := ascii "example.com", Path := ascii "/a", VaryCookie := none }
        { config with UseHTTPS := true }
      = ascii "[true,\"https:\\/\\/example.com\\/a\",null]" ∧
    getCacheKeyWithConfig { loaded with UseHTTPS := true, Host := [] }
        { r with Host := ascii "example.com", Path := ascii "/a", VaryCookie := none }
        { config with UseHTTPS := true }
      = ascii "A47AA6468371196B264806A4E2DAD7DA" ∧
    (getCacheKeyWithConfig loaded r config).length = 32 ∧
    ∀ c ∈ getCacheKeyWithConfig loaded r config, c ∈ ascii "0123456789ABCDEF" := by
  have hex : hashData { loaded with UseHTTPS := true, Host := [] }
        { r with Host := ascii "example.com", Path := ascii "/a", VaryCookie := none }
        { config with UseHTTPS := true }
      = ascii "[true,\"https:\\/\\/example.com\\/a\",null]" := by
    simp only [hashData, getUrl, Replace_slash, Bool.or_true, or_true, if_true]
    decide
  refine ⟨?_, hex, ?_, ?_, ?_⟩
  · simp only [getCacheKeyWithConfig, hashData, getUrl, Replace_slash]
    by_cases hh : loaded.Host = [] <;> simp [hh]
  · simp only [getCacheKeyWithConfig, hex]
    decide!
  · simp [getCacheKeyWithConfig, ToUpper, hexEncodeToString_length, md5Sum_length]
  · exact ToUpper_hexEncodeToString_mem _ (md5Sum_lt _)

/-- C3: under one configuration, two requests with the same resolved https
flag, host, path and `X-Magento-Vary` cookie get the same key, whatever their
method, query string, other headers and other cookies. -/
theorem getCacheKeyWithConfig_deterministic (cfg : CacheConfig) (r1 r2 : Request)
    (hflag : (decide (r1.XForwardedProto = ascii "https") || cfg.UseHTTPS)
      = (decide (r2.XForwardedProto = ascii "https") || cfg.UseHTTPS))
    (hhost : r1.Host = r2.Host) (hpath : r1.Path = r2.Path)
    (hvary : r1.VaryCookie = r2.VaryCookie) :
    getCacheKeyWithConfig cfg r1 cfg = getCacheKeyWithConfig cfg r2 cfg := by
  have hscheme :
      (r1.XForwardedProto = ascii "https" ∨ cfg.UseHTTPS = true) ↔
        (r2.XForwardedProto = ascii "https" ∨ cfg.UseHTTPS = true) := by
    have := congrArg (fun b => b = true) hflag
    simpa using this
  have hurl : getUrl cfg r1 = getUrl cfg r2 := by
    simp only [getUrl, hhost, hpath]
    by_cases h : r1.XForwardedProto = ascii "https" ∨ cfg.UseHTTPS = true
    · rw [if_pos h, if_pos (hscheme.1 h)]
    · rw [if_neg h, if_neg (fun h2 => h (hscheme.2 h2))]
  simp only [getCacheKeyWithConfig, hashData, hflag, hurl, hvary]

/-- C3 at two concrete requests that differ in method, query string, headers
and other cookies. -/
theorem getCacheKeyWithConfig_deterministic_witness :
    detRequest1 ≠ detRequest2 ∧
    getCacheKeyWithConfig sampleConfig detRequest1 sampleConfig
      = getCacheKeyWithConfig sampleConfig detRequest2 sampleConfig :=
  ⟨by decide,
   getCacheKeyWithConfig_deterministic sampleConfig detRequest1 detRequest2
     (by decide) (by decide) (by decide) (by decide)⟩

/-! ### Distinct variation tokens give distinct hashed texts -/

theorem escapeSlashes_append (a b : GoString) :
    escapeSlashes (a ++ b) = escapeSlashes a ++ escapeSlashes b := by
  simp [escapeSlashes]

theorem escapeSlashes_injective : Function.Injective escapeSlashes := by
  intro a
  induction a with
  | nil =>
    intro b h
    cases b with
    | nil => rfl
    | cons y ys =>
      by_cases hy : y = 47 <;> simp [escapeSlashes, hy] at h
  | cons x xs ih =>
    intro b h
    cases b with
    | nil => by_cases hx : x = 47 <;> simp [escapeSlashes, hx] at h
    | cons y ys =>
      have hx' : escapeSlashes (x :: xs) = (if x = 47 then [92, 47] else [x]) ++ escapeSlashes xs := by
        simp [escapeSlashes]
      have hy' : escapeSlashes (y :: ys) = (if y = 47 then [92, 47] else [y]) ++ escapeSlashes ys := by
        simp [escapeSlashes]
      rw [hx', hy'] at h
      by_cases hx : x = 47 <;> by_cases hy : y = 47
      · simp only [hx, hy, if_true, List.cons_append, List.nil_append, List.cons.injEq,
          true_and] at h
        rw [hx, hy, ih h]
      · simp only [hx, hy, if_true, if_false, List.cons_append, List.nil_append,
          List.cons.injEq] at h
        obtain ⟨h1, h2⟩ := h
        cases ys with
        | nil => simp [escapeSlashes] at h2
        | cons z zs =>
          by_cases hz : z = 47 <;> simp [escapeSlashes, hz] at h2
          exact absurd h2.1.symm hz
      · simp only [hx, hy, if_true, if_false, List.cons_append, List.nil_append,
          List.cons.injEq] at h
        obtain ⟨h1, h2⟩ := h
        cases xs with
        | nil => simp [escapeSlashes] at h2
        | cons z zs =>
          by_cases hz : z = 47 <;> simp [escapeSlashes, hz] at h2
      · simp only [hx, hy, if_false, List.cons_append, List.nil_append, List.cons.injEq] at h
        rw [h.1, ih h.2]

theorem validCookieValueByte_bounds (b : Nat) (h : validCookieValueByte b = true) :
    0x20 ≤ b ∧ b < 0x7f ∧ b ≠ 0x22 ∧ b ≠ 0x3B ∧ b ≠ 0x5C := by
  simpa [validCookieValueByte] using h

theorem tokenByte_jsonEscapeByte (b : Nat) (h : validCookieValueByte b = true)
    (rest : GoString) : tokenByte (jsonEscapeByte b ++ rest) = b := by
  obtain ⟨h1, h2, -, -, -⟩ := validCookieValueByte_bounds b h
  interval_cases b <;> first | rfl | exact absurd h (by decide)

theorem jsonEscapeByte_ne_nil (b : Nat) (h : validCookieValueByte b = true) :
    jsonEscapeByte b ≠ [] := by
  obtain ⟨h1, h2, -, -, -⟩ := validCookieValueByte_bounds b h
  interval_cases b <;> decide

theorem appendStringLoop_ascii (s : GoString) (fuel : Nat) (hs : ∀ b ∈ s, b < 0x80)
    (hf : s.length ≤ fuel) : appendStringLoop fuel s = s.flatMap jsonEscapeByte := by
  induction s generalizing fuel with
  | nil => cases fuel <;> simp [appendStringLoop]
  | cons b rest ih =>
    cases fuel with
    | zero => simp at hf
    | succ fuel =>
      have hb : b < 0x80 := hs b (List.mem_cons_self _ _)
      have hf2 : rest.length ≤ fuel := by simpa using hf
      simp [appendStringLoop, hb, ih fuel (fun c hc => hs c (List.mem_cons_of_mem _ hc)) hf2]

theorem flatMap_jsonEscapeByte_injective (v1 v2 : GoString)
    (h1 : v1.all validCookieValueByte = true) (h2 : v2.all validCookieValueByte = true)
    (h : v1.flatMap jsonEscapeByte = v2.flatMap jsonEscapeByte) : v1 = v2 := by
  induction v1 generalizing v2 with
  | nil =>
    cases v2 with
    | nil => rfl
    | cons y ys =>
      simp only [List.all_cons, Bool.and_eq_true] at h2
      have := jsonEscapeByte_ne_nil y h2.1
      simp only [List.flatMap_nil, List.flatMap_cons] at h
      have h' := congrArg List.length h
      simp only [List.length_nil, List.length_append] at h'
      have : (jsonEscapeByte y).length ≠ 0 := by
        intro h0
        exact this (List.length_eq_zero.mp h0)
      omega
  | cons x xs ih =>
    simp only [List.all_cons, Bool.and_eq_true] at h1
    cases v2 with
    | nil =>
      have := jsonEscapeByte_ne_nil x h1.1
      simp only [List.flatMap_nil, List.flatMap_cons] at h
      have h' := congrArg List.length h
      simp only [List.length_nil, List.length_append] at h'
      have : (jsonEscapeByte x).length ≠ 0 := by
        intro h0
        exact this (List.length_eq_zero.mp h0)
      omega
    | cons y ys =>
      simp only [List.all_cons, Bool.and_eq_true] at h2
      simp only [List.flatMap_cons] at h
      have hxy : x = y := by
        have := congrArg tokenByte h
        rwa [tokenByte_jsonEscapeByte x h1.1, tokenByte_jsonEscapeByte y h2.1] at this
      subst hxy
      rw [ih ys h1.2 h2.2 (List.append_cancel_left h)]

theorem appendString_cookie (v : CookieValue) :
    appendString v.val = [0x22] ++ v.val.flatMap jsonEscapeByte ++ [0x22] := by
  have hlt : ∀ b ∈ v.val, b < 0x80 := by
    intro b hb
    have := (validCookieValueByte_bounds b (List.all_eq_true.mp v.property b hb)).2.1
    omega
  simp only [appendString, appendStringLoop_ascii v.val v.val.length hlt (le_refl _)]

theorem appendString_cookie_injective (v1 v2 : CookieValue)
    (h : appendString v1.val = appendString v2.val) : v1 = v2 := by
  rw [appendString_cookie, appendString_cookie] at h
  have h' := List.append_cancel_right h
  have h'' := List.append_cancel_left h'
  exact Subtype.ext (flatMap_jsonEscapeByte_injective _ _ v1.property v2.property h'')

theorem jsonMarshal_triple (a b c : GoValue) :
    jsonMarshal [a, b, c] =
      ([0x5B] ++ marshalValue a ++ [0x2C] ++ marshalValue b ++ [0x2C]) ++ marshalValue c
        ++ [0x5D] := by
  simp [jsonMarshal, marshalElems]

theorem jsonMarshal_triple_last (a b c1 c2 : GoValue)
    (h : jsonMarshal [a, b, c1] = jsonMarshal [a, b, c2]) :
    marshalValue c1 = marshalValue c2 := by
  rw [jsonMarshal_triple, jsonMarshal_triple] at h
  exact List.append_cancel_left (List.append_cancel_right h)

theorem hashData_eq (loaded : CacheConfig) (r : Request) (config : CacheConfig) :
    hashData loaded r config =
      escapeSlashes (jsonMarshal
        [GoValue.bool (decide (r.XForwardedProto = ascii "https") || config.UseHTTPS),
         GoValue.string (getUrl loaded r),
         (match r.VaryCookie with
          | some cookie => GoValue.string cookie.val
          | none => GoValue.nil)]) := by
  simp only [hashData, Replace_slash]

set_option maxRecDepth 100000 in
theorem unhexPair_upper :
    ∀ v < 256, unhexPair (ToUpper [hextable.getD (v / 16) 0, hextable.getD (v % 16) 0]) = v := by
  decide!

theorem ToUpper_hexEncodeToString_cons (v : Nat) (rest : GoString) :
    ToUpper (hexEncodeToString (v :: rest)) =
      ToUpper [hextable.getD (v / 16) 0, hextable.getD (v % 16) 0]
        ++ ToUpper (hexEncodeToString rest) := by
  simp [hexEncodeToString, ToUpper]

theorem ToUpper_hexEncodeToString_injective (a b : GoString)
    (ha : ∀ x ∈ a, x < 256) (hb : ∀ x ∈ b, x < 256)
    (h : ToUpper (hexEncodeToString a) = ToUpper (hexEncodeToString b)) : a = b := by
  induction a generalizing b with
  | nil =>
    cases b with
    | nil => rfl
    | cons y ys => simp [hexEncodeToString, ToUpper] at h
  | cons x xs ih =>
    cases b with
    | nil => simp [hexEncodeToString, ToUpper] at h
    | cons y ys =>
      rw [ToUpper_hexEncodeToString_cons, ToUpper_hexEncodeToString_cons] at h
      have hlen : (ToUpper [hextable.getD (x / 16) 0, hextable.getD (x % 16) 0]).length
          = (ToUpper [hextable.getD (y / 16) 0, hextable.getD (y % 16) 0]).length := by
        simp [ToUpper]
      obtain ⟨hp, hr⟩ := List.append_inj h hlen
      have hxy : x = y := by
        have := congrArg unhexPair hp
        rwa [unhexPair_upper x (ha x (List.mem_cons_self _ _)),
          unhexPair_upper y (hb y (List.mem_cons_self _ _))] at this
      rw [hxy, ih ys (fun z hz => ha z (List.mem_cons_of_mem _ hz))
        (fun z hz => hb z (List.mem_cons_of_mem _ hz)) hr]

theorem key_eq_md5Sum_eq (loaded : CacheConfig) (r1 r2 : Request) (config : CacheConfig)
    (h : getCacheKeyWithConfig loaded r1 config = getCacheKeyWithConfig loaded r2 config) :
    md5Sum (hashData loaded r1 config) = md5Sum (hashData loaded r2 config) :=
  ToUpper_hexEncodeToString_injective _ _ (md5Sum_lt _) (md5Sum_lt _) h

/-- C4: the hashed text of a request without the `X-Magento-Vary` cookie
differs from the text of the same request with the cookie, whatever its value
(the empty value included); two values of the cookie give different texts;
so equal keys in either case are an MD5 collision of two different texts. -/
theorem hashData_vary_distinct (loaded : CacheConfig) (r : Request) (config : CacheConfig)
    (v v1 v2 : CookieValue) :
    hashData loaded { r with VaryCookie := none } config
      ≠ hashData loaded { r with VaryCookie := some v } config ∧
    hashData loaded { r with VaryCookie := none } config
      ≠ hashData loaded { r with VaryCookie := some ⟨[], rfl⟩ } config ∧
    (v1 ≠ v2 →
      hashData loaded { r with VaryCookie := some v1 } config
        ≠ hashData loaded { r with VaryCookie := some v2 } config) ∧
    (getCacheKeyWithConfig loaded { r with VaryCookie := none } config
        = getCacheKeyWithConfig loaded { r with VaryCookie := some v } config →
      md5Sum (hashData loaded { r with VaryCookie := none } config)
        = md5Sum (hashData loaded { r with VaryCookie := some v } config)) ∧
    (getCacheKeyWithConfig loaded { r with VaryCookie := some v1 } config
        = getCacheKeyWithConfig loaded { r with VaryCookie := some v2 } config →
      md5Sum (hashData loaded { r with VaryCookie := some v1 } config)
        = md5Sum (hashData loaded { r with VaryCookie := some v2 } config)) := by
  have habsent : ∀ w : CookieValue,
      hashData loaded { r with VaryCookie := none } config
        ≠ hashData loaded { r with VaryCookie := some w } config := by
    intro w h
    rw [hashData_eq, hashData_eq] at h
    have h2 := jsonMarshal_triple_last _ _ _ _ (escapeSlashes_injective h)
    have h3 := congrArg (fun s => List.headD s 0) h2
    have hnull : ascii "null" = [110, 117, 108, 108] := by decide
    simp [marshalValue, appendString, hnull] at h3
  refine ⟨habsent v, habsent _, ?_, key_eq_md5Sum_eq _ _ _ _, key_eq_md5Sum_eq _ _ _ _⟩
  intro hne h
  rw [hashData_eq, hashData_eq] at h
  have h2 := jsonMarshal_triple_last _ _ _ _ (escapeSlashes_injective h)
  exact hne (appendString_cookie_injective v1 v2 h2)

/-- C4 at the cookie values `a` and `b` on the request `detRequest1`. -/
theorem hashData_vary_distinct_witness :
    (⟨ascii "a", by decide⟩ : CookieValue) ≠ ⟨ascii "b", by decide⟩ ∧
    hashData sampleConfig { detRequest1 with VaryCookie := some ⟨ascii "a", by decide⟩ }
        sampleConfig
      ≠ hashData sampleConfig { detRequest1 with VaryCookie := some ⟨ascii "b", by decide⟩ }
        sampleConfig :=
  ⟨by decide,
   (hashData_vary_distinct sampleConfig detRequest1 sampleConfig ⟨[], rfl⟩
     ⟨ascii "a", by decide⟩ ⟨ascii "b", by decide⟩).2.2.1 (by decide)⟩

/-! ## Theorems: the response writer -/

theorem requestLimiterWaitFails_eq : requestLimiterWaitFails = false := by decide

@[simp] theorem HeaderSet_Status (w : ResponseWriter) (k v : GoString) :
    (w.HeaderSet k v).Status = w.Status := rfl

@[simp] theorem HeaderSet_Body (w : ResponseWriter) (k v : GoString) :
    (w.HeaderSet k v).Body = w.Body := rfl

theorem foldl_HeaderSet_Status (hs : List (GoString × GoString)) (w : ResponseWriter) :
    (hs.foldl (fun w kv => w.HeaderSet kv.1 kv.2) w).Status = w.Status := by
  induction hs generalizing w with
  | nil => rfl
  | cons kv rest ih => simp [List.foldl_cons, ih]

theorem foldl_HeaderSet_Body (hs : List (GoString × GoString)) (w : ResponseWriter) :
    (hs.foldl (fun w kv => w.HeaderSet kv.1 kv.2) w).Body = w.Body := by
  induction hs generalizing w with
  | nil => rfl
  | cons kv rest ih => simp [List.foldl_cons, ih]

theorem Write_Status (w : ResponseWriter) (b : GoString) (h : w.Status = none) :
    (w.Write b).Status = some 200 := by
  simp [ResponseWriter.Write, ResponseWriter.WriteHeader, h]

theorem Write_Body (w : ResponseWriter) (b : GoString) : (w.Write b).Body = w.Body ++ b := by
  unfold ResponseWriter.Write ResponseWriter.WriteHeader
  cases w.Status <;> rfl

theorem serveContent_Status (W : World) (config : CacheConfig) (w : ResponseWriter)
    (entry : CacheEntry) (h : w.Status = none) :
    (serveContent W config w entry).Status = some 200 := by
  unfold serveContent
  apply Write_Status
  simp [foldl_HeaderSet_Status, h]

theorem serveContent_Body (W : World) (config : CacheConfig) (w : ResponseWriter)
    (entry : CacheEntry) (hd : config.Debug = false) :
    (serveContent W config w entry).Body = w.Body ++ entry.Content := by
  unfold serveContent
  simp [Write_Body, foldl_HeaderSet_Body, hd]

@[simp] theorem deferred_Status (W : World) (o : Outcome) : (deferred W o).w.Status = o.w.Status :=
  rfl

@[simp] theorem deferred_Body (W : World) (o : Outcome) : (deferred W o).w.Body = o.w.Body := rfl

@[simp] theorem deferred_trace (W : World) (o : Outcome) : (deferred W o).trace = o.trace := rfl

@[simp] theorem deferred_spawned (W : World) (o : Outcome) :
    (deferred W o).spawned = o.spawned := rfl

@[simp] theorem deferred_localCache (W : World) (o : Outcome) :
    (deferred W o).localCache = o.localCache := rfl

/-! ## Theorems: the resolution protocol -/

theorem handleRequest_local_hit (W : World) (config : CacheConfig) (localCache : LocalCache)
    (now : Int) (r : Request) (e : CacheEntry) (huse : config.UseCache = true)
    (hc : isCacheable W.ToLower r = true)
    (hget : localCache.Get (getCacheKeyWithConfig config r config) now = some e) :
    handleRequest W config localCache now r =
      deferred W
        { w := serveContent W config
            (ResponseWriter.fresh.HeaderSet (ascii "X-Cache-Lookup-Time")
              (W.elapsed (ascii "X-Cache-Lookup-Time"))) e,
          localCache := localCache,
          trace := [Event.serveContent e],
          spawned :=
            if e.Expired then
              [{ cacheKey := getCacheKeyWithConfig config r config, r := r }]
            else [] } := by
  simp [handleRequest, requestLimiterWaitFails_eq, hc, huse, hget]

/-- C5: with the local tier enabled, a cacheable request whose key has a
fresh entry in the local tier is answered with that entry, status 200, and
nothing else happens: no Redis read, no origin fetch, no goroutine, the local
cache unchanged; the outcome is the same whatever Redis, the origin and the
gzip decoder would have answered. -/
theorem handleRequest_local_fresh (W : World) (config : CacheConfig) (localCache : LocalCache)
    (now : Int) (r : Request) (e : CacheEntry) (huse : config.UseCache = true)
    (hc : isCacheable W.ToLower r = true)
    (hget : localCache.Get (getCacheKeyWithConfig config r config) now = some e)
    (hfresh : e.Expired = false) :
    (handleRequest W config localCache now r).trace = [Event.serveContent e] ∧
    (handleRequest W config localCache now r).spawned = [] ∧
    (handleRequest W config localCache now r).localCache = localCache ∧
    (handleRequest W config localCache now r).w.Status = some 200 ∧
    (config.Debug = false → (handleRequest W config localCache now r).w.Body = e.Content) ∧
    ∀ (gunzip : GoString → GzipResult) (rdb : Option (GoString → Option GoString))
      (newRequestOk : GoString → GoString → Bool)
      (httpDo : GoString → GoString → Request → Option OriginResponse),
      handleRequest { W with gunzip := gunzip, rdb := rdb, newRequestOk := newRequestOk,
                             httpDo := httpDo } config localCache now r
        = handleRequest W config localCache now r := by
  rw [handleRequest_local_hit W config localCache now r e huse hc hget]
  refine ⟨rfl, by simp [hfresh], rfl, ?_, ?_, ?_⟩
  · simp only [deferred_Status]
    exact serveContent_Status _ _ _ _ rfl
  · intro hd
    simp only [deferred_Body]
    rw [serveContent_Body _ _ _ _ hd]
    rfl
  · intro gunzip rdb newRequestOk httpDo
    rw [handleRequest_local_hit
      { W with gunzip := gunzip, rdb := rdb, newRequestOk := newRequestOk, httpDo := httpDo }
      config localCache now r e huse hc hget]
    rfl

set_option maxRecDepth 100000 in
/-- C5 in the sample world: the local tier holds `local page` and Redis holds
`remote page` under the key of `GET /page`; the answer is `local page`. -/
theorem handleRequest_local_fresh_witness :
    redisEntry sampleWorld pageKey
      = some { Content := ascii "remote page",
               Headers := [(ascii "Content-Type", ascii "text/html; charset=UTF-8")],
               Expired := false } ∧
    (handleRequest sampleWorld sampleConfig warmCache (seconds 1) pageRequest).w.Body
      = ascii "local page" ∧
    (handleRequest sampleWorld sampleConfig warmCache (seconds 1) pageRequest).trace
      = [Event.serveContent (pageEntry (ascii "local page"))] :=
  have h := handleRequest_local_fresh sampleWorld sampleConfig warmCache (seconds 1) pageRequest
    (pageEntry (ascii "local page")) rfl (by decide) (by decide!) rfl
  ⟨by decide!, h.2.2.2.2.1 rfl, h.1⟩

theorem Set_lookup (c : LocalCache) (k : GoString) (x : CacheEntry) (d now : Int) :
    (c.Set k x d now).items.lookup k
      = some { Object := x,
               Expiration :=
                 if (if d = 0 then c.defaultExpiration else d) > 0 then
                   now + (if d = 0 then c.defaultExpiration else d)
                 else 0 } := by
  simp [LocalCache.Set, List.lookup]

theorem Set_lookup_pos (c : LocalCache) (k : GoString) (x : CacheEntry) (d now : Int)
    (hd : 0 < d) :
    (c.Set k x d now).items.lookup k = some { Object := x, Expiration := now + d } := by
  rw [Set_lookup]
  have h0 : d ≠ 0 := by omega
  simp [h0, hd]

theorem Set_Get_pos (c : LocalCache) (k : GoString) (x : CacheEntry) (d now t : Int)
    (hd : 0 < d) (ht : t ≤ now + d) : (c.Set k x d now).Get k t = some x := by
  unfold LocalCache.Get
  rw [Set_lookup_pos c k x d now hd]
  have : ¬ (now + d > 0 ∧ t > now + d) := by omega
  simp [this]

/-- C6: a cacheable request whose local entry is stale is answered with the
stale entry, and exactly one goroutine is started, for this key and request,
while the handler itself fetches nothing.  That goroutine makes one origin
fetch; when the fetch succeeds the local cache holds the fetched entry under
the key with deadline `now + CacheTTL`, and when it fails the local cache is
as it was, the stale entry in place. -/
theorem handleRequest_local_stale (W : World) (config : CacheConfig) (localCache : LocalCache)
    (now : Int) (r : Request) (e : CacheEntry) (huse : config.UseCache = true)
    (hc : isCacheable W.ToLower r = true)
    (hget : localCache.Get (getCacheKeyWithConfig config r config) now = some e)
    (hstale : e.Expired = true) :
    (handleRequest W config localCache now r).trace = [Event.serveContent e] ∧
    (handleRequest W config localCache now r).w.Status = some 200 ∧
    (config.Debug = false → (handleRequest W config localCache now r).w.Body = e.Content) ∧
    (handleRequest W config localCache now r).localCache = localCache ∧
    (handleRequest W config localCache now r).spawned
      = [{ cacheKey := getCacheKeyWithConfig config r config, r := r }] ∧
    (∀ (W2 : World) (c : LocalCache) (now2 : Int) (entry : CacheEntry),
      proxyRequest W2 config r = some entry →
        runRefresh W2 config { cacheKey := getCacheKeyWithConfig config r config, r := r } c now2
          = (c.Set (getCacheKeyWithConfig config r config) entry config.CacheTTL now2,
             [Event.proxyRequest r]) ∧
        (0 < config.CacheTTL →
          (runRefresh W2 config { cacheKey := getCacheKeyWithConfig config r config, r := r }
              c now2).1.items.lookup (getCacheKeyWithConfig config r config)
            = some { Object := entry, Expiration := now2 + config.CacheTTL } ∧
          ∀ t : Int, t ≤ now2 + config.CacheTTL →
            (runRefresh W2 config { cacheKey := getCacheKeyWithConfig config r config, r := r }
                c now2).1.Get (getCacheKeyWithConfig config r config) t = some entry)) ∧
    (∀ (W2 : World) (c : LocalCache) (now2 : Int),
      proxyRequest W2 config r = none →
        runRefresh W2 config { cacheKey := getCacheKeyWithConfig config r config, r := r } c now2
          = (c, [Event.proxyRequest r])) ∧
    (∀ (W2 : World) (now2 : Int),
      proxyRequest W2 config r = none →
        (runRefresh W2 config { cacheKey := getCacheKeyWithConfig config r config, r := r }
            (handleRequest W config localCache now r).localCache now2).1.Get
          (getCacheKeyWithConfig config r config) now = some e) := by
  rw [handleRequest_local_hit W config localCache now r e huse hc hget]
  refine ⟨rfl, ?_, ?_, rfl, by simp [hstale], ?_, ?_, ?_⟩
  · simp only [deferred_Status]
    exact serveContent_Status _ _ _ _ rfl
  · intro hd
    simp only [deferred_Body]
    rw [serveContent_Body _ _ _ _ hd]
    rfl
  · intro W2 c now2 entry hp
    have hrun : runRefresh W2 config
        { cacheKey := getCacheKeyWithConfig config r config, r := r } c now2
          = (c.Set (getCacheKeyWithConfig config r config) entry config.CacheTTL now2,
             [Event.proxyRequest r]) := by
      simp [runRefresh, hp]
    refine ⟨hrun, fun hpos => ?_⟩
    rw [hrun]
    exact ⟨Set_lookup_pos _ _ _ _ _ hpos, fun t ht => Set_Get_pos _ _ _ _ _ _ hpos ht⟩
  · intro W2 c now2 hp
    simp [runRefresh, hp]
  · intro W2 now2 hp
    simp [runRefresh, hp, hget]

set_option maxRecDepth 100000 in
/-- C6 in the sample world, 500000 s after the entry was set: the stale
`local page` is served and one refresh is started; run a second later it
stores the page of the origin, and with the origin down it leaves the cache
as it was. -/
theorem handleRequest_local_stale_witness :
    (handleRequest sampleWorld sampleConfig staleCache (seconds 500000) pageRequest).w.Body
      = ascii "local page" ∧
    (handleRequest sampleWorld sampleConfig staleCache (seconds 500000) pageRequest).spawned
      = [{ cacheKey := pageKey, r := pageRequest }] ∧
    (runRefresh sampleWorld sampleConfig { cacheKey := pageKey, r := pageRequest } staleCache
        (seconds 500001)).1.Get pageKey (seconds 500001)
      = some (pageEntry (ascii "<html><body>origin</body></html>")) ∧
    (runRefresh downWorld sampleConfig { cacheKey := pageKey, r := pageRequest } staleCache
        (seconds 500001)).1 = staleCache :=
  have h := handleRequest_local_stale sampleWorld sampleConfig staleCache (seconds 500000)
    pageRequest { pageEntry (ascii "local page") with Expired := true } rfl (by decide)
    (by decide!) rfl
  have hup : proxyRequest sampleWorld sampleConfig pageRequest
      = some (pageEntry (ascii "<html><body>origin</body></html>")) := by decide!
  have hdown : proxyRequest downWorld sampleConfig pageRequest = none := by decide!
  ⟨h.2.2.1 rfl, h.2.2.2.2.1,
   ((h.2.2.2.2.2.1 sampleWorld staleCache (seconds 500001) _ hup).2 (by decide)).2 _ (by decide),
   congrArg Prod.fst (h.2.2.2.2.2.2.1 downWorld staleCache (seconds 500001) hdown)⟩

/-! ## Theorems: remote and origin failures -/

theorem redisEntry_eq_none_iff (W : World) (cacheKey : GoString) :
    redisEntry W cacheKey = none ↔
      (W.rdb = none ∨
        ∃ get, W.rdb = some get ∧
          (get cacheKey = none ∨
            ∃ content, get cacheKey = some content ∧
              ∀ d, W.gunzip content ≠ GzipResult.ok d)) := by
  unfold redisEntry
  cases hr : W.rdb with
  | none => simp
  | some get =>
    cases hg : get cacheKey with
    | none => simp [hg]
    | some content =>
      cases hz : W.gunzip content <;> simp [hg, hz]

theorem handleRequest_miss (W : World) (config : CacheConfig) (localCache : LocalCache)
    (now : Int) (r : Request) (hc : isCacheable W.ToLower r = true)
    (hmiss : config.UseCache = false ∨
      localCache.Get (getCacheKeyWithConfig config r config) now = none)
    (hremote : redisEntry W (getCacheKeyWithConfig config r config) = none) :
    handleRequest W config localCache now r =
      deferred W (fetchFromOrigin W config localCache now r
        (getCacheKeyWithConfig config r config) ResponseWriter.fresh
        (redisTrace W (getCacheKeyWithConfig config r config))) := by
  have hlocal : (if config.UseCache = true then
      localCache.Get (getCacheKeyWithConfig config r config) now else none) = none := by
    rcases hmiss with h | h
    · simp [h]
    · simp [h]
  simp only [handleRequest, requestLimiterWaitFails_eq, hc, hlocal, hremote]
  simp

/-- C8: for a cacheable request that misses the local tier, when the Redis
read returns an error or returns bytes that do not gzip-decode, the handler
goes on to the origin fetch right after the Redis read; when the fetch
succeeds its entry is served with status 200 (no error status), and stored in
the local cache when that is enabled. -/
theorem handleRequest_remote_failure (W : World) (config : CacheConfig)
    (localCache : LocalCache) (now : Int) (r : Request)
    (get : GoString → Option GoString) (hc : isCacheable W.ToLower r = true)
    (hmiss : config.UseCache = false ∨
      localCache.Get (getCacheKeyWithConfig config r config) now = none)
    (hrdb : W.rdb = some get)
    (hfail : get (getCacheKeyWithConfig config r config) = none ∨
      ∃ content, get (getCacheKeyWithConfig config r config) = some content ∧
        ∀ d, W.gunzip content ≠ GzipResult.ok d) :
    (handleRequest W config localCache now r).trace.take 2
      = [Event.redisGet (getCacheKeyWithConfig config r config), Event.proxyRequest r] ∧
    ∀ entry, proxyRequest W config r = some entry →
      (handleRequest W config localCache now r).trace
        = [Event.redisGet (getCacheKeyWithConfig config r config), Event.proxyRequest r,
           Event.serveContent entry] ∧
      (handleRequest W config localCache now r).w.Status = some 200 ∧
      (config.Debug = false → (handleRequest W config localCache now r).w.Body = entry.Content) ∧
      (handleRequest W config localCache now r).localCache
        = (if config.UseCache then
            localCache.Set (getCacheKeyWithConfig config r config) entry config.CacheTTL now
          else localCache) := by
  have hremote : redisEntry W (getCacheKeyWithConfig config r config) = none :=
    (redisEntry_eq_none_iff W _).2 (Or.inr ⟨get, hrdb, hfail⟩)
  have htrace : redisTrace W (getCacheKeyWithConfig config r config)
      = [Event.redisGet (getCacheKeyWithConfig config r config)] := by
    simp [redisTrace, hrdb]
  rw [handleRequest_miss W config localCache now r hc hmiss hremote, htrace]
  constructor
  · unfold fetchFromOrigin
    cases proxyRequest W config r <;> simp
  · intro entry hp
    simp only [fetchFromOrigin, hp]
    refine ⟨by simp, ?_, fun hd => ?_, by simp⟩
    · simp only [deferred_Status]
      exact serveContent_Status _ _ _ _ rfl
    · simp only [deferred_Body]
      rw [serveContent_Body _ _ _ _ hd]
      rfl

set_option maxRecDepth 100000 in
/-- C8 in two sample worlds, on an empty local cache: Redis answers with an
error, or with bytes that are no gzip stream, and the page of the origin is
served with status 200. -/
theorem handleRequest_remote_failure_witness :
    (handleRequest redisDownWorld sampleConfig (initLocalCache sampleConfig) 0
        pageRequest).w.Status = some 200 ∧
    (handleRequest redisDownWorld sampleConfig (initLocalCache sampleConfig) 0
        pageRequest).w.Body = ascii "<html><body>origin</body></html>" ∧
    (handleRequest redisGarbageWorld sampleConfig (initLocalCache sampleConfig) 0
        pageRequest).w.Body = ascii "<html><body>origin</body></html>" :=
  have hup : proxyRequest sampleWorld sampleConfig pageRequest
      = some (pageEntry (ascii "<html><body>origin</body></html>")) := by decide!
  have h1 := (handleRequest_remote_failure redisDownWorld sampleConfig
    (initLocalCache sampleConfig) 0 pageRequest (fun _ => none) (by decide) (Or.inr rfl) rfl
    (Or.inl rfl)).2 _ hup
  have h2 := (handleRequest_remote_failure redisGarbageWorld sampleConfig
    (initLocalCache sampleConfig) 0 pageRequest (fun _ => some (ascii "not gzip")) (by decide)
    (Or.inr rfl) rfl
    (Or.inr ⟨ascii "not gzip", rfl, by
      intro d
      have : storedGunzip (ascii "not gzip") = GzipResult.headerError := by decide
      show storedGunzip (ascii "not gzip") ≠ GzipResult.ok d
      rw [this]
      exact fun h => GzipResult.noConfusion h⟩)).2 _ hup
  ⟨h1.2.1, h1.2.2.1 rfl, h2.2.2.1 rfl⟩

/-- C9: for a cacheable request that misses the local tier (disabled, or no
retrievable entry under the key) and the remote tier (no client, a read
error, or bytes that do not gzip-decode), a failing origin fetch is answered
with status 502 and an empty body, and the local cache is exactly as before. -/
theorem handleRequest_origin_failure (W : World) (config : CacheConfig)
    (localCache : LocalCache) (now : Int) (r : Request)
    (hc : isCacheable W.ToLower r = true)
    (hmiss : config.UseCache = false ∨
      localCache.Get (getCacheKeyWithConfig config r config) now = none)
    (hremote : W.rdb = none ∨
      ∃ get, W.rdb = some get ∧
        (get (getCacheKeyWithConfig config r config) = none ∨
          ∃ content, get (getCacheKeyWithConfig config r config) = some content ∧
            ∀ d, W.gunzip content ≠ GzipResult.ok d))
    (horigin : proxyRequest W config r = none) :
    (handleRequest W config localCache now r).w.Status = some 502 ∧
    (handleRequest W config localCache now r).w.Body = [] ∧
    (handleRequest W config localCache now r).localCache = localCache ∧
    (handleRequest W config localCache now r).spawned = [] ∧
    (handleRequest W config localCache now r).trace
      = redisTrace W (getCacheKeyWithConfig config r config) ++ [Event.proxyRequest r] := by
  rw [handleRequest_miss W config localCache now r hc hmiss
    ((redisEntry_eq_none_iff W _).2 hremote)]
  simp only [fetchFromOrigin, horigin]
  exact ⟨rfl, rfl, rfl, rfl, rfl⟩

set_option maxRecDepth 100000 in
/-- C9 in the sample world with Redis and the origin down, on an empty local
cache: the answer is 502 and the cache stays empty. -/
theorem handleRequest_origin_failure_witness :
    (handleRequest downWorld sampleConfig (initLocalCache sampleConfig) 0
        pageRequest).w.Status = some 502 ∧
    (handleRequest downWorld sampleConfig (initLocalCache sampleConfig) 0
        pageRequest).localCache = initLocalCache sampleConfig :=
  have h := handleRequest_origin_failure downWorld sampleConfig (initLocalCache sampleConfig)
    0 pageRequest (by decide) (Or.inr rfl) (Or.inr ⟨fun _ => none, rfl, Or.inl rfl⟩)
    (by decide!)
  ⟨h.1, h.2.2.1⟩

/-! ## Theorems: expiry in the local tier -/

theorem Set_mem_keys (c : LocalCache) (k k2 : GoString) (x : CacheEntry) (d now : Int) :
    k ∈ (c.Set k2 x d now).items.map Prod.fst ↔ k = k2 ∨ k ∈ c.items.map Prod.fst := by
  simp only [LocalCache.Set, List.map_cons, List.mem_cons, List.mem_map, List.mem_filter]
  constructor
  · rintro (h | ⟨a, ⟨ha, -⟩, rfl⟩)
    · exact Or.inl h
    · exact Or.inr ⟨a, ha, rfl⟩
  · rintro (h | ⟨a, ha, rfl⟩)
    · exact Or.inl h
    · by_cases hk : a.1 = k2
      · exact Or.inl hk
      · exact Or.inr ⟨a, ⟨ha, by simpa using hk⟩, rfl⟩

theorem foldl_onEvicted_mem_keys (config : CacheConfig) (now : Int) (k : GoString)
    (ev : List (GoString × Item)) (c : LocalCache) :
    k ∈ (ev.foldl (fun c kv => onEvicted config now c kv.1 kv.2.Object) c).items.map Prod.fst
      ↔ k ∈ ev.map Prod.fst ∨ k ∈ c.items.map Prod.fst := by
  induction ev generalizing c with
  | nil => simp
  | cons kv rest ih =>
    rw [List.foldl_cons, ih, onEvicted, Set_mem_keys]
    simp only [List.map_cons, List.mem_cons]
    tauto

theorem DeleteExpired_keeps_key (config : CacheConfig) (hstale : config.UseStale = true)
    (c : LocalCache) (now : Int) (k : GoString) (hk : k ∈ c.items.map Prod.fst) :
    k ∈ (DeleteExpired config c now).items.map Prod.fst := by
  simp only [DeleteExpired, hstale, if_true]
  rw [foldl_onEvicted_mem_keys]
  obtain ⟨kv, hkv, rfl⟩ := List.mem_map.mp hk
  by_cases he : LocalCache.expired kv.2 now = true
  · exact Or.inl (List.mem_map.mpr ⟨kv, List.mem_filter.mpr ⟨hkv, he⟩, rfl⟩)
  · exact Or.inr (List.mem_map.mpr ⟨kv, List.mem_filter.mpr ⟨hkv, by simpa using he⟩, rfl⟩)

theorem runJanitor_keeps_key (config : CacheConfig) (hstale : config.UseStale = true)
    (ticks : List Int) (c : LocalCache) (k : GoString) (hk : k ∈ c.items.map Prod.fst) :
    k ∈ (runJanitor config c ticks).items.map Prod.fst := by
  unfold runJanitor
  split
  · clear * - hstale hk
    induction ticks generalizing c with
    | nil => exact hk
    | cons t rest ih =>
      rw [List.foldl_cons]
      exact ih _ (DeleteExpired_keeps_key config hstale c t k hk)
  · exact hk

set_option maxRecDepth 100000 in
/-- C7, the code at the failing input: an entry set at time 0 with the fresh
TTL of 60 s and the stale TTL of 432000 s.  The first run of the janitor, at
432000 s, makes it stale with deadline 864000 s, as claimed.  The run at
1296000 s finds the stale entry past its deadline and the eviction callback
stores it again, with deadline 1728000 s: the entry is retrievable then,
long after 432060 s. -/
theorem stale_entry_reinserted :
    warmCache.items.lookup pageKey
      = some { Object := pageEntry (ascii "local page"), Expiration := seconds 60 } ∧
    (runJanitor sampleConfig warmCache [seconds 432000]).items.lookup pageKey
      = some { Object := { pageEntry (ascii "local page") with Expired := true },
               Expiration := seconds 864000 } ∧
    (runJanitor sampleConfig warmCache
        [seconds 432000, seconds 864000, seconds 1296000]).items.lookup pageKey
      = some { Object := { pageEntry (ascii "local page") with Expired := true },
               Expiration := seconds 1728000 } ∧
    (runJanitor sampleConfig warmCache
        [seconds 432000, seconds 864000, seconds 1296000]).Get pageKey (seconds 1296000)
      = some { pageEntry (ascii "local page") with Expired := true } := by
  decide!

/-! ## Theorems: the round trip of a compressed origin body -/

theorem HasPrefix_isPrefix (s p : GoString) (h : HasPrefix s p = true) : p <+: s := by
  simp only [HasPrefix, Bool.and_eq_true, decide_eq_true_eq, beq_iff_eq] at h
  rw [← h.2]
  exact List.take_prefix _ _

theorem replaceLoop_absent (old new : GoString) (s : GoString) (fuel : Nat) (n : Int)
    (h : ¬ old <:+: s) : replaceLoop old new fuel n s = s := by
  induction s generalizing fuel n with
  | nil => cases fuel <;> simp [replaceLoop]
  | cons b rest ih =>
    cases fuel with
    | zero => simp [replaceLoop]
    | succ fuel =>
      have hrest : ¬ old <:+: rest := fun hr => h (hr.trans (List.suffix_cons b rest).isInfix)
      have hp : HasPrefix (b :: rest) old = false := by
        cases hh : HasPrefix (b :: rest) old with
        | false => rfl
        | true => exact absurd (HasPrefix_isPrefix _ _ hh).isInfix h
      by_cases hn : n = 0
      · simp [replaceLoop, hn]
      · simp [replaceLoop, hn, hp, ih fuel n hrest]

theorem Replace_absent (s old new : GoString) (n : Int) (h : ¬ old <:+: s) :
    Replace s old new n = s := by
  unfold Replace
  split
  · rfl
  · exact replaceLoop_absent old new s s.length n h

theorem serveContent_Body_plain (W : World) (config : CacheConfig) (w : ResponseWriter)
    (entry : CacheEntry)
    (h : config.Debug = false ∨ ¬ ascii "</body>" <:+: entry.Content) :
    (serveContent W config w entry).Body = w.Body ++ entry.Content := by
  rcases h with h | h
  · exact serveContent_Body W config w entry h
  · unfold serveContent
    simp only [Write_Body, HeaderSet_Body, foldl_HeaderSet_Body]
    split
    · rw [Replace_absent _ _ _ _ h]
    · rfl

theorem Set_Get_some (c : LocalCache) (k : GoString) (x e : CacheEntry) (d now t : Int)
    (h : (c.Set k x d now).Get k t = some e) : e = x := by
  obtain ⟨ex, hex⟩ : ∃ ex, (c.Set k x d now).items.lookup k
      = some { Object := x, Expiration := ex } := ⟨_, Set_lookup c k x d now⟩
  unfold LocalCache.Get at h
  rw [hex] at h
  simp only at h
  split at h
  · exact absurd h (by simp)
  · exact (Option.some.inj h).symm

set_option maxRecDepth 100000 in
/-- C10 fails in debug mode: the origin delivers the gzip stream of
`<html><body>origin</body></html>`, `proxyRequest` yields an entry with that
content, and `serveContent` writes a body with the debug comment inserted
before `</body>`. -/
theorem serveContent_debug_alters_body :
    sampleWorld.httpDo (ascii "GET") (ascii "https://backend.test/page") pageRequest
      = some { ContentEncoding := ascii "gzip", ContentType := ascii "text/html",
               Body := some (storedGzip (ascii "<html><body>origin</body></html>")) } ∧
    sampleWorld.gunzip (storedGzip (ascii "<html><body>origin</body></html>"))
      = GzipResult.ok (ascii "<html><body>origin</body></html>") ∧
    proxyRequest sampleWorld debugConfig pageRequest
      = some (pageEntry (ascii "<html><body>origin</body></html>")) ∧
    (serveContent sampleWorld debugConfig ResponseWriter.fresh
        (pageEntry (ascii "<html><body>origin</body></html>"))).Body
      = ascii "<html><body>origin" ++ ascii "\n<!-- Fast-Cache Debug Info:\n     Time: 0.10ms"
          ++ ascii "\n     Size: 32 bytes\n     Cache: HIT\n     Key: \n     URL: \n-->"
          ++ ascii "</body></html>" ∧
    (serveContent sampleWorld debugConfig ResponseWriter.fresh
        (pageEntry (ascii "<html><body>origin</body></html>"))).Body
      ≠ ascii "<html><body>origin</body></html>" := by
  decide!

/-- C10, amended: when the origin delivers the gzip stream of `b` with
`Content-Encoding: gzip`, `proxyRequest` yields an entry whose content is `b`;
and when debug mode is off or `b` holds no `</body>`, `serveContent` writes
exactly `b`, for that entry and for whatever is read back under a key after
the entry was stored there in the local cache. -/
theorem proxyRequest_gzip_roundtrip (W : World) (config : CacheConfig) (r : Request)
    (resp : OriginResponse) (raw b : GoString)
    (hnew : W.newRequestOk r.Method
      ((if config.UseHTTPS then ascii "https" else ascii "http") ++ ascii "://" ++ config.Host
        ++ r.Path) = true)
    (hdo : W.httpDo r.Method
      ((if config.UseHTTPS then ascii "https" else ascii "http") ++ ascii "://" ++ config.Host
        ++ r.Path) r = some resp)
    (henc : resp.ContentEncoding = ascii "gzip") (hbody : resp.Body = some raw)
    (hgz : W.gunzip raw = GzipResult.ok b)
    (hplain : config.Debug = false ∨ ¬ ascii "</body>" <:+: b) :
    ∃ entry, proxyRequest W config r = some entry ∧ entry.Content = b ∧
      (∀ w : ResponseWriter, w.Body = [] → (serveContent W config w entry).Body = b) ∧
      ∀ (c : LocalCache) (key : GoString) (now t : Int) (e : CacheEntry) (w : ResponseWriter),
        (c.Set key entry config.CacheTTL now).Get key t = some e → w.Body = [] →
          (serveContent W config w e).Body = b := by
  refine ⟨{ Content := b, Headers := [(ascii "Content-Type", resp.ContentType)],
            Expired := false }, ?_, rfl, ?_, ?_⟩
  · simp only [proxyRequest, hnew, hdo, henc, hbody, hgz, Bool.not_true, Bool.false_eq_true,
      if_false, if_true]
  · intro w hw
    rw [serveContent_Body_plain W config w _ hplain, hw]
    rfl
  · intro c key now t e w hget hw
    rw [Set_Get_some c key _ e _ now t hget, serveContent_Body_plain W config w _ hplain, hw]
    rfl

set_option maxRecDepth 100000 in
/-- C10, amended, in the sample world with debug mode off: the page of the
origin is served as delivered, also after a round through the local cache. -/
theorem proxyRequest_gzip_roundtrip_witness :
    ∃ entry, proxyRequest sampleWorld sampleConfig pageRequest = some entry ∧
      entry.Content = ascii "<html><body>origin</body></html>" ∧
      (serveContent sampleWorld sampleConfig ResponseWriter.fresh entry).Body
        = ascii "<html><body>origin</body></html>" ∧
      ((initLocalCache sampleConfig).Set pageKey entry sampleConfig.CacheTTL 0).Get pageKey
        (seconds 1) = some entry :=
  have h := proxyRequest_gzip_roundtrip sampleWorld sampleConfig pageRequest
    { ContentEncoding := ascii "gzip", ContentType := ascii "text/html",
      Body := some (storedGzip (ascii "<html><body>origin</body></html>")) }
    (storedGzip (ascii "<html><body>origin</body></html>"))
    (ascii "<html><body>origin</body></html>") rfl rfl rfl rfl (by decide!) (Or.inl rfl)
  match h with
  | ⟨entry, hp, hc, hs, _⟩ =>
    ⟨entry, hp, hc, hs ResponseWriter.fresh rfl,
     Set_Get_pos _ _ _ _ _ _ (by decide) (by decide)⟩

/-! ## Theorems: the headers of a served entry -/

theorem lookup_filter_ne (l : List (GoString × GoString)) (n k : GoString) (h : n ≠ k) :
    (l.filter (fun kv => kv.1 ≠ k)).lookup n = l.lookup n := by
  induction l with
  | nil => rfl
  | cons kv rest ih =>
    obtain ⟨a, b⟩ := kv
    by_cases hak : a = k
    · subst hak
      have hna : (n == a) = false := by simpa using h
      simpa [List.filter_cons, List.lookup_cons, hna] using ih
    · by_cases hna : n = a
      · subst hna
        simp [List.filter_cons, List.lookup_cons, hak]
      · have hna2 : (n == a) = false := by simpa using hna
        simpa [List.filter_cons, List.lookup_cons, hak, hna2] using ih

theorem HeaderSet_lookup_self (w : ResponseWriter) (k v : GoString) :
    (w.HeaderSet k v).Header.lookup (CanonicalMIMEHeaderKey k) = some v := by
  simp [ResponseWriter.HeaderSet, List.lookup_cons]

theorem HeaderSet_lookup_ne (w : ResponseWriter) (k v n : GoString)
    (h : n ≠ CanonicalMIMEHeaderKey k) :
    (w.HeaderSet k v).Header.lookup n = w.Header.lookup n := by
  have hb : (n == CanonicalMIMEHeaderKey k) = false := by simpa using h
  simp only [ResponseWriter.HeaderSet, List.lookup_cons, hb]
  exact lookup_filter_ne _ _ _ h

theorem foldl_HeaderSet_lookup_absent (hs : List (GoString × GoString)) (w : ResponseWriter)
    (n : GoString) (h : n ∉ hs.map (fun kv => CanonicalMIMEHeaderKey kv.1)) :
    (hs.foldl (fun w kv => w.HeaderSet kv.1 kv.2) w).Header.lookup n = w.Header.lookup n := by
  induction hs generalizing w with
  | nil => rfl
  | cons kv rest ih =>
    simp only [List.map_cons, List.mem_cons, not_or] at h
    rw [List.foldl_cons, ih _ h.2, HeaderSet_lookup_ne _ _ _ _ h.1]

theorem foldl_HeaderSet_lookup_mem (hs : List (GoString × GoString)) (w : ResponseWriter)
    (k v : GoString) (hmem : (k, v) ∈ hs)
    (hnodup : (hs.map (fun kv => CanonicalMIMEHeaderKey kv.1)).Nodup) :
    (hs.foldl (fun w kv => w.HeaderSet kv.1 kv.2) w).Header.lookup (CanonicalMIMEHeaderKey k)
      = some v := by
  induction hs generalizing w with
  | nil => simp at hmem
  | cons kv rest ih =>
    simp only [List.map_cons, List.nodup_cons] at hnodup
    rw [List.foldl_cons]
    rcases List.mem_cons.mp hmem with h | h
    · subst h
      rw [foldl_HeaderSet_lookup_absent _ _ _ hnodup.1]
      exact HeaderSet_lookup_self _ _ _
    · exact ih _ h hnodup.2

theorem Write_SentHeader (w : ResponseWriter) (b : GoString) (h : w.Status = none) :
    (w.Write b).SentHeader = w.Header := by
  simp [ResponseWriter.Write, ResponseWriter.WriteHeader, h]

theorem serveContent_SentHeader (W : World) (config : CacheConfig) (w : ResponseWriter)
    (entry : CacheEntry) (h : w.Status = none) :
    (serveContent W config w entry).SentHeader =
      (((((entry.Headers.foldl (fun w kv => w.HeaderSet kv.1 kv.2) w).HeaderSet
            (ascii "Content-Type") (ascii "text/html; charset=UTF-8")).HeaderSet
          (ascii "Fast-Cache") (ascii "HIT")).HeaderSet
        (ascii "Fast-Cache-Time") (W.elapsed (ascii "Fast-Cache-Time"))).HeaderSet
      (ascii "Fast-Cache-Length") (formatInt entry.Content.length)).Header := by
  unfold serveContent
  apply Write_SentHeader
  simp [foldl_HeaderSet_Status, h]

theorem canonical_metadata_names :
    CanonicalMIMEHeaderKey (ascii "Content-Type") = ascii "Content-Type" ∧
    CanonicalMIMEHeaderKey (ascii "Fast-Cache") = ascii "Fast-Cache" ∧
    CanonicalMIMEHeaderKey (ascii "Fast-Cache-Time") = ascii "Fast-Cache-Time" ∧
    CanonicalMIMEHeaderKey (ascii "Fast-Cache-Length") = ascii "Fast-Cache-Length" := by
  decide

set_option maxRecDepth 100000 in
/-- C11 fails for stored headers that `serveContent` sets itself or that share
a name: of the entry storing `Fast-Cache: MISS` the response carries
`Fast-Cache: HIT` (while its `Content-Type` is forced and its
`X-Frame-Options: DENY` is carried); of the entry storing `x-a: 1` and
`X-A: 2` the response carries the one header `X-A: 2`. -/
theorem serveContent_overwrites_stored_headers :
    (ascii "Fast-Cache", ascii "MISS") ∈ labelledEntry.Headers ∧
    (serveContent sampleWorld sampleConfig ResponseWriter.fresh labelledEntry).SentHeader.lookup
        (ascii "Fast-Cache") = some (ascii "HIT") ∧
    (serveContent sampleWorld sampleConfig ResponseWriter.fresh labelledEntry).SentHeader.lookup
        (ascii "Content-Type") = some (ascii "text/html; charset=UTF-8") ∧
    (serveContent sampleWorld sampleConfig ResponseWriter.fresh labelledEntry).SentHeader.lookup
        (ascii "X-Frame-Options") = some (ascii "DENY") ∧
    (ascii "x-a", ascii "1") ∈ twiceNamedEntry.Headers ∧
    (serveContent sampleWorld sampleConfig ResponseWriter.fresh
        twiceNamedEntry).SentHeader.lookup (ascii "x-a") = none ∧
    (serveContent sampleWorld sampleConfig ResponseWriter.fresh
        twiceNamedEntry).SentHeader.lookup (ascii "X-A") = some (ascii "2") := by
  decide!

/-- C11, amended: on a writer that has sent nothing, the header map of the
response, as it stands when `serveContent` sends the status, has
`Content-Type` exactly `text/html; charset=UTF-8`, whatever the entry stores;
and when no two stored keys have the same canonical name, it holds every
stored header whose canonical name is none of `Content-Type`, `Fast-Cache`,
`Fast-Cache-Time` and `Fast-Cache-Length`, under that canonical name and with
its stored value. -/
theorem serveContent_headers (W : World) (config : CacheConfig) (w : ResponseWriter)
    (entry : CacheEntry) (hw : w.Status = none) :
    (serveContent W config w entry).SentHeader.lookup (ascii "Content-Type")
      = some (ascii "text/html; charset=UTF-8") ∧
    ((entry.Headers.map (fun kv => CanonicalMIMEHeaderKey kv.1)).Nodup →
      ∀ k v, (k, v) ∈ entry.Headers →
        CanonicalMIMEHeaderKey k ≠ ascii "Content-Type" →
        CanonicalMIMEHeaderKey k ≠ ascii "Fast-Cache" →
        CanonicalMIMEHeaderKey k ≠ ascii "Fast-Cache-Time" →
        CanonicalMIMEHeaderKey k ≠ ascii "Fast-Cache-Length" →
        (serveContent W config w entry).SentHeader.lookup (CanonicalMIMEHeaderKey k)
          = some v) := by
  obtain ⟨hct, hfc, hft, hfl⟩ := canonical_metadata_names
  rw [serveContent_SentHeader W config w entry hw]
  constructor
  · rw [HeaderSet_lookup_ne _ _ _ _ (by rw [hfl]; decide),
      HeaderSet_lookup_ne _ _ _ _ (by rw [hft]; decide),
      HeaderSet_lookup_ne _ _ _ _ (by rw [hfc]; decide)]
    have := HeaderSet_lookup_self
      (entry.Headers.foldl (fun w kv => w.HeaderSet kv.1 kv.2) w)
      (ascii "Content-Type") (ascii "text/html; charset=UTF-8")
    rwa [hct] at this
  · intro hnodup k v hmem h1 h2 h3 h4
    rw [HeaderSet_lookup_ne _ _ _ _ (by rw [hfl]; exact h4),
      HeaderSet_lookup_ne _ _ _ _ (by rw [hft]; exact h3),
      HeaderSet_lookup_ne _ _ _ _ (by rw [hfc]; exact h2),
      HeaderSet_lookup_ne _ _ _ _ (by rw [hct]; exact h1)]
    exact foldl_HeaderSet_lookup_mem _ _ _ _ hmem hnodup

set_option maxRecDepth 100000 in
/-- C11, amended, at the entry storing `Content-Type: application/json`,
`Fast-Cache: MISS` and `X-Frame-Options: DENY`: the content type sent is the
forced one and `X-Frame-Options: DENY` is sent. -/
theorem serveContent_headers_witness :
    (serveContent sampleWorld sampleConfig ResponseWriter.fresh labelledEntry).SentHeader.lookup
        (ascii "Content-Type") = some (ascii "text/html; charset=UTF-8") ∧
    (serveContent sampleWorld sampleConfig ResponseWriter.fresh labelledEntry).SentHeader.lookup
        (CanonicalMIMEHeaderKey (ascii "X-Frame-Options")) = some (ascii "DENY") :=
  have h := serveContent_headers sampleWorld sampleConfig ResponseWriter.fresh labelledEntry rfl
  ⟨h.1, h.2 (by decide) (ascii "X-Frame-Options") (ascii "DENY") (by decide) (by decide)
    (by decide) (by decide) (by decide)⟩

/-! ## Theorems: the cache-status header -/

@[simp] theorem deferred_SentHeader (W : World) (o : Outcome) :
    (deferred W o).w.SentHeader = o.w.SentHeader := rfl

theorem serveContent_FastCache (W : World) (config : CacheConfig) (w : ResponseWriter)
    (entry : CacheEntry) (hw : w.Status = none) :
    (serveContent W config w entry).SentHeader.lookup (ascii "Fast-Cache")
      = some (ascii "HIT") := by
  obtain ⟨-, hfc, hft, hfl⟩ := canonical_metadata_names
  rw [serveContent_SentHeader W config w entry hw,
    HeaderSet_lookup_ne _ _ _ _ (by rw [hfl]; decide),
    HeaderSet_lookup_ne _ _ _ _ (by rw [hft]; decide)]
  have := HeaderSet_lookup_self
    ((entry.Headers.foldl (fun w kv => w.HeaderSet kv.1 kv.2) w).HeaderSet
      (ascii "Content-Type") (ascii "text/html; charset=UTF-8"))
    (ascii "Fast-Cache") (ascii "HIT")
  rwa [hfc] at this

theorem fetchFromOrigin_FastCache (W : World) (config : CacheConfig) (localCache : LocalCache)
    (now : Int) (r : Request) (cacheKey : GoString) (trace : List Event) :
    (fetchFromOrigin W config localCache now r cacheKey ResponseWriter.fresh trace).w.Status
        = some 502 ∨
      (fetchFromOrigin W config localCache now r cacheKey ResponseWriter.fresh
          trace).w.SentHeader.lookup (ascii "Fast-Cache") = some (ascii "HIT") := by
  unfold fetchFromOrigin
  cases proxyRequest W config r with
  | none => exact Or.inl rfl
  | some entry => exact Or.inr (serveContent_FastCache _ _ _ _ rfl)

theorem handleRequest_FastCache (W : World) (config : CacheConfig) (localCache : LocalCache)
    (now : Int) (r : Request) :
    (handleRequest W config localCache now r).w.Status = some 502 ∨
      (handleRequest W config localCache now r).w.SentHeader.lookup (ascii "Fast-Cache")
        = some (ascii "HIT") := by
  unfold handleRequest
  simp only [requestLimiterWaitFails_eq, Bool.false_eq_true, if_false]
  split
  · split
    · refine Or.inl ?_
      simp only [deferred_Status]
      split <;> rfl
    · refine Or.inr ?_
      simp only [deferred_SentHeader]
      apply serveContent_FastCache
      split <;> rfl
  · split
    · refine Or.inr ?_
      simp only [deferred_SentHeader]
      exact serveContent_FastCache _ _ _ _ rfl
    · split
      · refine Or.inr ?_
        simp only [deferred_SentHeader]
        exact serveContent_FastCache _ _ _ _ rfl
      · simp only [deferred_SentHeader, deferred_Status]
        exact fetchFromOrigin_FastCache _ _ _ _ _ _ _

set_option maxRecDepth 100000 in
/-- C12, the code at the failing inputs: every response of `handleRequest` that
is not a 502 is sent with `Fast-Cache: HIT`.  A cacheable request that misses
the local tier and Redis and is fetched from the origin is answered with
`Fast-Cache: HIT`, and so is a request that is not cacheable, in debug mode
too, where `handleRequest` first sets `Fast-Cache: FALSE`. -/
theorem fastCache_reports_hit_for_origin :
    (∀ (W : World) (config : CacheConfig) (localCache : LocalCache) (now : Int) (r : Request),
      (handleRequest W config localCache now r).w.Status = some 502 ∨
        (handleRequest W config localCache now r).w.SentHeader.lookup (ascii "Fast-Cache")
          = some (ascii "HIT")) ∧
    (handleRequest redisDownWorld sampleConfig (initLocalCache sampleConfig) 0
        pageRequest).trace
      = [Event.redisGet pageKey, Event.proxyRequest pageRequest,
         Event.serveContent (pageEntry (ascii "<html><body>origin</body></html>"))] ∧
    (handleRequest redisDownWorld sampleConfig (initLocalCache sampleConfig) 0
        pageRequest).w.SentHeader.lookup (ascii "Fast-Cache") = some (ascii "HIT") ∧
    isCacheable sampleWorld.ToLower cartRequest = false ∧
    (handleRequest sampleWorld debugConfig (initLocalCache debugConfig) 0 cartRequest).trace
      = [Event.proxyRequest cartRequest,
         Event.serveContent (pageEntry (ascii "<html><body>origin</body></html>"))] ∧
    (handleRequest sampleWorld debugConfig (initLocalCache debugConfig) 0
        cartRequest).w.SentHeader.lookup (ascii "Fast-Cache") = some (ascii "HIT") ∧
    (handleRequest sampleWorld sampleConfig warmCache (seconds 1) pageRequest).trace
      = [Event.serveContent (pageEntry (ascii "local page"))] ∧
    (handleRequest sampleWorld sampleConfig warmCache (seconds 1)
        pageRequest).w.SentHeader.lookup (ascii "Fast-Cache") = some (ascii "HIT") := by
  refine ⟨handleRequest_FastCache, ?_, ?_, ?_, ?_, ?_, ?_, ?_⟩ <;> decide!

/-! ## Theorems: the keys read from Redis -/

theorem getCacheKeyWithConfig_not_prefixed (loaded : CacheConfig) (r : Request)
    (config : CacheConfig) (p : GoString) :
    HasPrefix (getCacheKeyWithConfig loaded r config) (corePrefix ++ p) = false := by
  cases hp : HasPrefix (getCacheKeyWithConfig loaded r config) (corePrefix ++ p) with
  | false => rfl
  | true =>
    exfalso
    have hpre := HasPrefix_isPrefix _ _ hp
    have hz : (122 : Nat) ∈ getCacheKeyWithConfig loaded r config := by
      apply hpre.subset
      have : corePrefix = 122 :: ascii "c:k:" := by decide
      rw [this]
      exact List.mem_cons_self _ _
    have hhex := ToUpper_hexEncodeToString_mem _ (md5Sum_lt (hashData loaded r config)) 122 hz
    revert hhex
    decide

theorem redisKeys_append (a b : List Event) : redisKeys (a ++ b) = redisKeys a ++ redisKeys b := by
  induction a with
  | nil => rfl
  | cons e rest ih => cases e <;> simp [redisKeys, ih]

theorem redisKeys_redisTrace (W : World) (cacheKey : GoString) :
    redisKeys (redisTrace W cacheKey) = [] ∨ redisKeys (redisTrace W cacheKey) = [cacheKey] := by
  unfold redisTrace
  cases W.rdb with
  | none => exact Or.inl rfl
  | some get => exact Or.inr rfl

theorem handleRequest_redisKeys (W : World) (config : CacheConfig) (localCache : LocalCache)
    (now : Int) (r : Request) :
    redisKeys (handleRequest W config localCache now r).trace = [] ∨
      redisKeys (handleRequest W config localCache now r).trace
        = [getCacheKeyWithConfig config r config] := by
  unfold handleRequest
  simp only [requestLimiterWaitFails_eq, Bool.false_eq_true, if_false]
  split
  · split <;> exact Or.inl rfl
  · split
    · exact Or.inl rfl
    · split
      · simp only [deferred_trace, redisKeys_append]
        rcases redisKeys_redisTrace W (getCacheKeyWithConfig config r config) with h | h
        · exact Or.inl (by rw [h]; rfl)
        · exact Or.inr (by rw [h]; rfl)
      · simp only [deferred_trace, fetchFromOrigin]
        rcases redisKeys_redisTrace W (getCacheKeyWithConfig config r config) with h | h
        · refine Or.inl ?_
          split <;> simp [redisKeys_append, h, redisKeys]
        · refine Or.inr ?_
          split <;> simp [redisKeys_append, h, redisKeys]

set_option maxRecDepth 100000 in
/-- C13, the code at the failing input: the only key `handleRequest` ever reads
from Redis is the derived cache key itself, and that key, 32 characters among
`0-9A-F`, never begins with `zc:k:` followed by a configured prefix.  For
`GET /page` on an empty local cache the key read is
`501A10551E127EE0314D096067E0283A`, not
`zc:k:b30_501A10551E127EE0314D096067E0283A`. -/
theorem redis_key_unprefixed :
    (∀ (W : World) (config : CacheConfig) (localCache : LocalCache) (now : Int) (r : Request),
      (redisKeys (handleRequest W config localCache now r).trace = [] ∨
        redisKeys (handleRequest W config localCache now r).trace
          = [getCacheKeyWithConfig config r config]) ∧
      HasPrefix (getCacheKeyWithConfig config r config) (combinedPrefix config) = false) ∧
    combinedPrefix sampleConfig = ascii "zc:k:b30_" ∧
    redisKeys (handleRequest sampleWorld sampleConfig (initLocalCache sampleConfig) 0
        pageRequest).trace = [ascii "501A10551E127EE0314D096067E0283A"] ∧
    redisKeys (handleRequest sampleWorld sampleConfig (initLocalCache sampleConfig) 0
        pageRequest).trace
      ≠ [combinedPrefix sampleConfig ++ getCacheKeyWithConfig sampleConfig pageRequest
          sampleConfig] := by
  refine ⟨fun W config localCache now r =>
    ⟨handleRequest_redisKeys W config localCache now r,
     getCacheKeyWithConfig_not_prefixed config r config config.Prefix⟩, ?_, ?_, ?_⟩ <;> decide!

/-! ## Theorems: integers from the environment -/

theorem Sscanf_error (str : GoString) : ∃ e, Sscanf str = (0, some e) := by
  unfold Sscanf
  split
  · exact ⟨_, rfl⟩
  · exact ⟨_, rfl⟩

theorem getEnvInt_eq_default (env : Env) (key : GoString) (defaultValue : Int) :
    getEnvInt env key defaultValue = defaultValue := by
  unfold getEnvInt
  split
  · obtain ⟨e, he⟩ := Sscanf_error (env key)
    rw [he]
  · rfl

/-- C14, the code at the failing input: `getEnvInt` returns the default for
every environment, key and default, since `fmt.Sscanf(value, "%d")` is called
without an operand and always returns an error.  With `CACHE_TTL=120` the
value read is 60 and the fresh TTL of the configuration is 60 s, not 120 s. -/
theorem getEnvInt_ignores_value :
    (∀ (env : Env) (key : GoString) (defaultValue : Int),
      getEnvInt env key defaultValue = defaultValue) ∧
    ttlEnv (ascii "CACHE_TTL") = ascii "120" ∧
    Sscanf (ascii "120") = (0, some ScanError.tooFewOperands) ∧
    getEnvInt ttlEnv (ascii "CACHE_TTL") 60 = 60 ∧
    (loadConfig ttlEnv).CacheTTL = seconds 60 ∧
    (loadConfig ttlEnv).CacheTTL ≠ seconds 120 := by
  refine ⟨getEnvInt_eq_default, by decide, by decide, by decide, ?_, ?_⟩
  · simp only [loadConfig, getEnvInt_eq_default]
  · simp only [loadConfig, getEnvInt_eq_default]
    decide

end FastFPC
